import Mathlib

/-!
Verification of the Unicode-aware pre-tokenization core of `unicode.cpp`
(llama.cpp pre-tokenizer). The C++ source is shallowly embedded: byte
strings become `List Nat` (each element a byte value), codepoints become
`Nat`, fallible functions return `Except UnicodeError`, and the hand
written splitter loops become fuel-indexed tail recursions (the fuel is
always sufficient; sufficiency is proved, never assumed).
-/

/-- Error kinds of the core, named as in the specification.
`InvalidUtf8` models `throw std::invalid_argument("invalid character")`
inside the UTF-8 decoder, `InvalidCodepoint` models
`throw std::invalid_argument("invalid codepoint")` in the encoder,
`MixedCategoryAndLiteral` models the
`throw std::runtime_error("Regex includes both unicode categories and non-ASCII characters - not supported")`
in `unicode_regex_split`, and `RegexFailure` models
`throw std::runtime_error("Failed to process regex")`. -/
inductive UnicodeError where
  | InvalidUtf8
  | InvalidCodepoint
  | UnknownEncodedByte
  | RegexFailure
  | MixedCategoryAndLiteral
deriving DecidableEq

/-- Embedding of `unicode_cpt_to_utf8` (unicode.cpp:579-606): encode one
codepoint as 1 to 4 UTF-8 bytes; out of range throws `invalid codepoint`. -/
def unicode_cpt_to_utf8 (cp : Nat) : Except UnicodeError (List Nat) :=
  if cp ≤ 0x7f then
    Except.ok [cp]
  else if 0x80 ≤ cp ∧ cp ≤ 0x7ff then
    Except.ok [0xc0 ||| ((cp >>> 6) &&& 0x1f), 0x80 ||| (cp &&& 0x3f)]
  else if 0x800 ≤ cp ∧ cp ≤ 0xffff then
    Except.ok [0xe0 ||| ((cp >>> 12) &&& 0x0f), 0x80 ||| ((cp >>> 6) &&& 0x3f),
               0x80 ||| (cp &&& 0x3f)]
  else if 0x10000 ≤ cp ∧ cp ≤ 0x10ffff then
    Except.ok [0xf0 ||| ((cp >>> 18) &&& 0x07), 0x80 ||| ((cp >>> 12) &&& 0x3f),
               0x80 ||| ((cp >>> 6) &&& 0x3f), 0x80 ||| (cp &&& 0x3f)]
  else
    Except.error UnicodeError.InvalidCodepoint

/-- Embedding of `unicode_cpt_from_utf8` (unicode.cpp:52-87): decode the
codepoint starting at byte position `offset`, returning the codepoint and
the new offset. The C++ reads `char` values and masks them; masking by a
constant below 0x100 makes the signed-char representation irrelevant, so
bytes are modelled as `Nat`. The initial `assert(offset < utf8.size())`
(never violated by the caller) is modelled as a decoding error. -/
def unicode_cpt_from_utf8 (utf8 : List Nat) (offset : Nat) :
    Except UnicodeError (Nat × Nat) :=
  if offset < utf8.length then
    if (utf8.getD offset 0) &&& 0x80 = 0 then
      Except.ok (utf8.getD offset 0, offset + 1)
    else if (utf8.getD offset 0) &&& 0x40 = 0 then
      Except.error UnicodeError.InvalidUtf8
    else if (utf8.getD offset 0) &&& 0x20 = 0 then
      if offset + 1 ≥ utf8.length ∨ ¬ ((utf8.getD (offset + 1) 0) &&& 0xc0 = 0x80) then
        Except.error UnicodeError.InvalidUtf8
      else
        Except.ok ((((utf8.getD offset 0) &&& 0x1f) <<< 6) |||
                   ((utf8.getD (offset + 1) 0) &&& 0x3f), offset + 2)
    else if (utf8.getD offset 0) &&& 0x10 = 0 then
      if offset + 2 ≥ utf8.length ∨ ¬ ((utf8.getD (offset + 1) 0) &&& 0xc0 = 0x80) ∨
          ¬ ((utf8.getD (offset + 2) 0) &&& 0xc0 = 0x80) then
        Except.error UnicodeError.InvalidUtf8
      else
        Except.ok ((((utf8.getD offset 0) &&& 0x0f) <<< 12) |||
                   (((utf8.getD (offset + 1) 0) &&& 0x3f) <<< 6) |||
                   ((utf8.getD (offset + 2) 0) &&& 0x3f), offset + 3)
    else if (utf8.getD offset 0) &&& 0x08 = 0 then
      if offset + 3 ≥ utf8.length ∨ ¬ ((utf8.getD (offset + 1) 0) &&& 0xc0 = 0x80) ∨
          ¬ ((utf8.getD (offset + 2) 0) &&& 0xc0 = 0x80) ∨
          ¬ ((utf8.getD (offset + 3) 0) &&& 0xc0 = 0x80) then
        Except.error UnicodeError.InvalidUtf8
      else
        Except.ok ((((utf8.getD offset 0) &&& 0x07) <<< 18) |||
                   (((utf8.getD (offset + 1) 0) &&& 0x3f) <<< 12) |||
                   (((utf8.getD (offset + 2) 0) &&& 0x3f) <<< 6) |||
                   ((utf8.getD (offset + 3) 0) &&& 0x3f), offset + 4)
    else
      Except.error UnicodeError.InvalidUtf8
  else
    Except.error UnicodeError.InvalidUtf8

/-- Fuel-indexed loop of `unicode_cpts_from_utf8` (unicode.cpp:621-628):
`while (offset < utf8.size()) result.push_back(unicode_cpt_from_utf8(utf8, offset))`.
Each decode advances `offset` by at least one, so fuel `utf8.length` never
runs out when started at offset 0. -/
def unicode_cpts_from_utf8_go (utf8 : List Nat) :
    Nat → Nat → Except UnicodeError (List Nat)
  | 0, offset =>
    if offset < utf8.length then Except.error UnicodeError.InvalidUtf8 else Except.ok []
  | fuel + 1, offset =>
    if offset < utf8.length then
      match unicode_cpt_from_utf8 utf8 offset with
      | Except.error e => Except.error e
      | Except.ok (cp, offset2) =>
        match unicode_cpts_from_utf8_go utf8 fuel offset2 with
        | Except.error e => Except.error e
        | Except.ok rest => Except.ok (cp :: rest)
    else Except.ok []

/-- Embedding of `unicode_cpts_from_utf8` (unicode.cpp:621-628). -/
def unicode_cpts_from_utf8 (utf8 : List Nat) : Except UnicodeError (List Nat) :=
  unicode_cpts_from_utf8_go utf8 utf8.length 0

/-- Embedding of `unicode_cpts_to_utf8` (unicode.cpp:44-50): concatenate
the per-codepoint encodings. -/
def unicode_cpts_to_utf8 (cps : List Nat) : Except UnicodeError (List Nat) :=
  match cps with
  | [] => Except.ok []
  | cp :: rest =>
    match unicode_cpt_to_utf8 cp with
    | Except.error e => Except.error e
    | Except.ok bs =>
      match unicode_cpts_to_utf8 rest with
      | Except.error e => Except.error e
      | Except.ok rest2 => Except.ok (bs ++ rest2)

/-- Total wrapper of the encoder for call sites where the C++ calls
`unicode_cpt_to_utf8(ch)` on arguments that can never be out of range
(so the throw is unreachable); an unreachable error yields `[]`. -/
def cpt_to_utf8_total (cp : Nat) : List Nat :=
  match unicode_cpt_to_utf8 cp with
  | Except.ok bs => bs
  | Except.error _ => []

/-- The three seeded visible byte ranges of `unicode_byte_to_utf8_map`
(unicode.cpp:172-183): 0x21..0x7E, 0xA1..0xAC, 0xAE..0xFF. -/
def unicode_byte_to_utf8_seed_bytes : List Nat :=
  List.range' 0x21 (0x7E - 0x21 + 1) ++ List.range' 0xA1 (0xAC - 0xA1 + 1) ++
    List.range' 0xAE (0xFF - 0xAE + 1)

/-- The fill loop of `unicode_byte_to_utf8_map` (unicode.cpp:184-190):
for each byte 0..255 not yet in the map, assign the UTF-8 encoding of the
next free codepoint starting at 256. The `std::unordered_map` is modelled
as an association list with `List.lookup`; keys are inserted at most once,
so lookup semantics agree with the hash map. -/
def unicode_byte_to_utf8_fill (m : List (Nat × List Nat)) (n : Nat) :
    List Nat → List (Nat × List Nat)
  | [] => m
  | ch :: rest =>
    if (m.lookup ch).isNone then
      unicode_byte_to_utf8_fill (m ++ [(ch, cpt_to_utf8_total (256 + n))]) (n + 1) rest
    else
      unicode_byte_to_utf8_fill m n rest

/-- Embedding of `unicode_byte_to_utf8_map` (unicode.cpp:170-192). -/
def unicode_byte_to_utf8_map : List (Nat × List Nat) :=
  unicode_byte_to_utf8_fill
    (unicode_byte_to_utf8_seed_bytes.map (fun ch => (ch, cpt_to_utf8_total ch)))
    0 (List.range 256)

/-- The fill loop of `unicode_utf8_to_byte_map` (unicode.cpp:208-214):
mirror image of `unicode_byte_to_utf8_fill`, keyed by the UTF-8 string. -/
def unicode_utf8_to_byte_fill (rm : List (List Nat × Nat)) (n : Nat) :
    List Nat → List (List Nat × Nat)
  | [] => rm
  | ch :: rest =>
    if (rm.lookup (cpt_to_utf8_total ch)).isNone then
      unicode_utf8_to_byte_fill (rm ++ [(cpt_to_utf8_total (256 + n), ch)]) (n + 1) rest
    else
      unicode_utf8_to_byte_fill rm n rest

/-- Embedding of `unicode_utf8_to_byte_map` (unicode.cpp:194-216). -/
def unicode_utf8_to_byte_map : List (List Nat × Nat) :=
  unicode_utf8_to_byte_fill
    (unicode_byte_to_utf8_seed_bytes.map (fun ch => (cpt_to_utf8_total ch, ch)))
    0 (List.range 256)

/-- Embedding of `unicode_byte_to_utf8` (unicode.cpp:645-648); `map.at`
throwing on a missing key is modelled by `Option`. -/
def unicode_byte_to_utf8 (b : Nat) : Option (List Nat) :=
  unicode_byte_to_utf8_map.lookup b

/-- Embedding of `unicode_utf8_to_byte` (unicode.cpp:650-653). -/
def unicode_utf8_to_byte (s : List Nat) : Option Nat :=
  unicode_utf8_to_byte_map.lookup s

/-- Modelled from the spec: the `codepoint_flags` bitfield struct lives in
`unicode.h`, which is not among the sources; §3 of the spec lists one
mutually exclusive category (`UNDEFINED, NUMBER, LETTER, SEPARATOR,
ACCENT_MARK, PUNCTUATION, SYMBOL, CONTROL`) plus independent bits
`is_whitespace`, `is_lowercase`, `is_uppercase`, `is_nfd`. -/
structure codepoint_flags where
  is_undefined : Bool := false
  is_number : Bool := false
  is_letter : Bool := false
  is_separator : Bool := false
  is_accent_mark : Bool := false
  is_punctuation : Bool := false
  is_symbol : Bool := false
  is_control : Bool := false
  is_whitespace : Bool := false
  is_lowercase : Bool := false
  is_uppercase : Bool := false
  is_nfd : Bool := false
deriving DecidableEq

/-- The `codepoint_flags(UNDEFINED)` constant used for out-of-range
positions. -/
def codepoint_flags.UNDEF : codepoint_flags := { is_undefined := true }

/-- The `category_flag()` accessor: the flag word masked by
`MASK_CATEGORIES` (the low eight category bits, UNDEFINED = 0x0001,
NUMBER = 0x0002, LETTER = 0x0004, SEPARATOR = 0x0008,
ACCENT_MARK = 0x0010, PUNCTUATION = 0x0020, SYMBOL = 0x0040,
CONTROL = 0x0080). -/
def codepoint_flags.category_flag (f : codepoint_flags) : Nat :=
  (if f.is_undefined then 0x0001 else 0) + (if f.is_number then 0x0002 else 0) +
  (if f.is_letter then 0x0004 else 0) + (if f.is_separator then 0x0008 else 0) +
  (if f.is_accent_mark then 0x0010 else 0) + (if f.is_punctuation then 0x0020 else 0) +
  (if f.is_symbol then 0x0040 else 0) + (if f.is_control then 0x0080 else 0)

/-- The character class `[^\s\p{L}\p{N}]` tested (on defined codepoints)
by both splitters (unicode.cpp:323,325 and 448,450). -/
def codepoint_flags.other_class (f : codepoint_flags) : Bool :=
  !(f.is_whitespace || f.is_letter || f.is_number || f.is_undefined)

/-- The `_get_cpt` lambda shared by both custom splitters
(unicode.cpp:255-257 and 373-375): the codepoint at `pos`, or 0 outside
`[offset_ini, offset_end)`. -/
def seg_get_cpt (cpts : List Nat) (offset_ini offset_end pos : Nat) : Nat :=
  if offset_ini ≤ pos ∧ pos < offset_end then cpts.getD pos 0 else 0

/-- The `_get_flags` lambda shared by both custom splitters
(unicode.cpp:259-262 and 377-380): the flags at `pos`, or `UNDEFINED`
outside `[offset_ini, offset_end)`. The process-global table
`unicode_cpt_flags` (whose data lives in unicode-data.cpp, outside the
sources) enters as the parameter `flagsOf`. -/
def seg_get_flags (flagsOf : Nat → codepoint_flags) (cpts : List Nat)
    (offset_ini offset_end pos : Nat) : codepoint_flags :=
  if offset_ini ≤ pos ∧ pos < offset_end then flagsOf (cpts.getD pos 0)
  else codepoint_flags.UNDEF

/-- The per-rule value `flags2 = (cpt == ' ' ? _get_flags(pos+1) : flags)`
(unicode.cpp:303 and 447). -/
def seg_flags2 (flagsOf : Nat → codepoint_flags) (cpts : List Nat)
    (offset_ini offset_end pos : Nat) : codepoint_flags :=
  if seg_get_cpt cpts offset_ini offset_end pos = 32 then
    seg_get_flags flagsOf cpts offset_ini offset_end (pos + 1)
  else
    seg_get_flags flagsOf cpts offset_ini offset_end pos

/-- The cursor after `pos += (cpt == ' ')` (unicode.cpp:306 etc). -/
def seg_pos1 (cpts : List Nat) (offset_ini offset_end pos : Nat) : Nat :=
  if seg_get_cpt cpts offset_ini offset_end pos = 32 then pos + 1 else pos

/-- The `_add_token` lambda (unicode.cpp:265-279 and 383-397): push
`tok_end - prev_end` onto the offset list when positive; the second
component is the pushed length (the C++ return value). The caller updates
`_prev_end` to `tok_end`. -/
def add_token (acc : List Nat) (prev_end tok_end : Nat) : List Nat × Nat :=
  (if 0 < tok_end - prev_end then acc ++ [tok_end - prev_end] else acc, tok_end - prev_end)

/-- A `while (p pos) pos++` scan returning the final cursor, fuel-indexed.
Both splitters only scan within the segment (every predicate used is false
from `offset_end` on), so fuel `offset_end - start` is always enough. -/
def run_while (p : Nat → Bool) (pos : Nat) : Nat → Nat
  | 0 => pos
  | fuel + 1 => if p pos then run_while p (pos + 1) fuel else pos

/-- The whitespace-counting loop of the GPT-2 splitter
(unicode.cpp:332-335): the number of consecutive whitespace positions
starting at `pos + n`. -/
def ws_count (isws : Nat → Bool) (pos n : Nat) : Nat → Nat
  | 0 => n
  | fuel + 1 => if isws (pos + n) then ws_count isws pos (n + 1) fuel else n

/-- The whitespace-scanning loop of the LLaMA-3 splitter
(unicode.cpp:461-469): counts consecutive whitespace and remembers
`last_end_r_or_n`, the position one past the last CR or LF seen. -/
def ws_scan (isws : Nat → Bool) (getc : Nat → Nat) (pos n last : Nat) : Nat → Nat × Nat
  | 0 => (n, last)
  | fuel + 1 =>
    if isws (pos + n) then
      ws_scan isws getc pos (n + 1)
        (if getc (pos + n) = 13 ∨ getc (pos + n) = 10 then pos + n + 1 else last) fuel
    else (n, last)

/-- The digit-run loop of the LLaMA-3 splitter (unicode.cpp:435-441):
`while (isnum pos) { if (++pos - ini >= 3) { _add_token(pos); ini = pos } }`,
returning the offsets accumulated so far, the final cursor and the final
`_prev_end`. -/
def digit_run (isnum : Nat → Bool) (acc : List Nat) (pos ini prev_end : Nat) :
    Nat → List Nat × Nat × Nat
  | 0 => (acc, pos, prev_end)
  | fuel + 1 =>
    if isnum pos then
      if 3 ≤ pos + 1 - ini then
        digit_run isnum (add_token acc prev_end (pos + 1)).1 (pos + 1) (pos + 1) (pos + 1) fuel
      else
        digit_run isnum acc (pos + 1) ini prev_end fuel
    else (acc, pos, prev_end)

/-- The shared shape of the three optional-space run rules of the GPT-2
splitter (unicode.cpp:303-330): skip the optional leading space, scan the
maximal run of the class `p`, emit. -/
def gpt2_run_step (flagsOf : Nat → codepoint_flags) (cpts : List Nat)
    (offset_ini offset_end pos prev_end : Nat) (acc : List Nat) (p : Nat → Bool) :
    Nat × Nat × List Nat :=
  (run_while p (seg_pos1 cpts offset_ini offset_end pos)
      (offset_end - seg_pos1 cpts offset_ini offset_end pos),
   run_while p (seg_pos1 cpts offset_ini offset_end pos)
      (offset_end - seg_pos1 cpts offset_ini offset_end pos),
   (add_token acc prev_end
      (run_while p (seg_pos1 cpts offset_ini offset_end pos)
        (offset_end - seg_pos1 cpts offset_ini offset_end pos))).1)

/-- The two whitespace rules and the fallback of the GPT-2 splitter
(unicode.cpp:332-352), given the whitespace count `n` at the cursor. -/
def gpt2_ws_step (flagsOf : Nat → codepoint_flags) (cpts : List Nat)
    (offset_ini offset_end pos prev_end : Nat) (acc : List Nat) (n : Nat) :
    Nat × Nat × List Nat :=
  -- regex: \s+(?!\S)  (unicode.cpp:338-342)
  if 1 < n ∧ seg_get_cpt cpts offset_ini offset_end (pos + n) ≠ 0 then
    (pos + n - 1, pos + n - 1, (add_token acc prev_end (pos + n - 1)).1)
  -- regex: \s+  (unicode.cpp:345-348)
  else if 0 < n then
    (pos + n, pos + n, (add_token acc prev_end (pos + n)).1)
  -- no matches  (unicode.cpp:352)
  else
    (pos + 1, pos + 1, (add_token acc prev_end (pos + 1)).1)

/-- One iteration of the per-segment loop of
`unicode_regex_split_custom_gpt2` (unicode.cpp:281-353): from the cursor,
the `_prev_end` marker and the offsets accumulated so far, the state after
the matching rule fires (the loop body is factored out of the loop so that
each rule can be reasoned about in isolation; the nested contraction `if`s
with `continue` are flattened into one `if`-chain, rule order preserved).
-/
def gpt2_iter (flagsOf : Nat → codepoint_flags) (cpts : List Nat)
    (offset_ini offset_end pos prev_end : Nat) (acc : List Nat) : Nat × Nat × List Nat :=
  -- regex: 's|'t|'m|'d  (unicode.cpp:286-291)
  if seg_get_cpt cpts offset_ini offset_end pos = 39 ∧ pos + 1 < offset_end ∧
      (seg_get_cpt cpts offset_ini offset_end (pos + 1) = 115 ∨
       seg_get_cpt cpts offset_ini offset_end (pos + 1) = 116 ∨
       seg_get_cpt cpts offset_ini offset_end (pos + 1) = 109 ∨
       seg_get_cpt cpts offset_ini offset_end (pos + 1) = 100) then
    (pos + (add_token acc prev_end (pos + 2)).2, pos + 2, (add_token acc prev_end (pos + 2)).1)
  -- regex: 're|'ve|'ll  (unicode.cpp:292-300)
  else if seg_get_cpt cpts offset_ini offset_end pos = 39 ∧ pos + 1 < offset_end ∧
      pos + 2 < offset_end ∧
      ((seg_get_cpt cpts offset_ini offset_end (pos + 1) = 114 ∧
        seg_get_cpt cpts offset_ini offset_end (pos + 2) = 101) ∨
       (seg_get_cpt cpts offset_ini offset_end (pos + 1) = 118 ∧
        seg_get_cpt cpts offset_ini offset_end (pos + 2) = 101) ∨
       (seg_get_cpt cpts offset_ini offset_end (pos + 1) = 108 ∧
        seg_get_cpt cpts offset_ini offset_end (pos + 2) = 108)) then
    (pos + (add_token acc prev_end (pos + 3)).2, pos + 3, (add_token acc prev_end (pos + 3)).1)
  -- regex: <space>?\p{L}+  (unicode.cpp:303-312)
  else if (seg_flags2 flagsOf cpts offset_ini offset_end pos).is_letter then
    gpt2_run_step flagsOf cpts offset_ini offset_end pos prev_end acc
      (fun q => (seg_get_flags flagsOf cpts offset_ini offset_end q).is_letter)
  -- regex: <space>?\p{N}+  (unicode.cpp:314-321)
  else if (seg_flags2 flagsOf cpts offset_ini offset_end pos).is_number then
    gpt2_run_step flagsOf cpts offset_ini offset_end pos prev_end acc
      (fun q => (seg_get_flags flagsOf cpts offset_ini offset_end q).is_number)
  -- regex: <space>?[^\s\p{L}\p{N}]+  (unicode.cpp:323-330)
  else if (seg_flags2 flagsOf cpts offset_ini offset_end pos).other_class then
    gpt2_run_step flagsOf cpts offset_ini offset_end pos prev_end acc
      (fun q => (seg_get_flags flagsOf cpts offset_ini offset_end q).other_class)
  else
    gpt2_ws_step flagsOf cpts offset_ini offset_end pos prev_end acc
      (ws_count (fun q => (seg_get_flags flagsOf cpts offset_ini offset_end q).is_whitespace)
        pos 0 (offset_end - pos))

/-- The per-segment loop of `unicode_regex_split_custom_gpt2`
(unicode.cpp:281-353), fuel-indexed over `gpt2_iter`. -/
def gpt2_go (flagsOf : Nat → codepoint_flags) (cpts : List Nat)
    (offset_ini offset_end : Nat) : Nat → Nat → Nat → List Nat → List Nat
  | 0, _, _, acc => acc
  | fuel + 1, pos, prev_end, acc =>
    if pos < offset_end then
      gpt2_go flagsOf cpts offset_ini offset_end fuel
        (gpt2_iter flagsOf cpts offset_ini offset_end pos prev_end acc).1
        (gpt2_iter flagsOf cpts offset_ini offset_end pos prev_end acc).2.1
        (gpt2_iter flagsOf cpts offset_ini offset_end pos prev_end acc).2.2
    else acc

/-- The optional-space other-class rule of the LLaMA-3 splitter with its
trailing CR/LF consumption (unicode.cpp:447-458). -/
def llama3_other_step (flagsOf : Nat → codepoint_flags) (cpts : List Nat)
    (offset_ini offset_end pos prev_end : Nat) (acc : List Nat) (e1 : Nat) :
    Nat × Nat × List Nat :=
  (run_while (fun q => seg_get_cpt cpts offset_ini offset_end q == 13 ||
      seg_get_cpt cpts offset_ini offset_end q == 10) e1 (offset_end - e1),
   run_while (fun q => seg_get_cpt cpts offset_ini offset_end q == 13 ||
      seg_get_cpt cpts offset_ini offset_end q == 10) e1 (offset_end - e1),
   (add_token acc prev_end
      (run_while (fun q => seg_get_cpt cpts offset_ini offset_end q == 13 ||
        seg_get_cpt cpts offset_ini offset_end q == 10) e1 (offset_end - e1))).1)

/-- The three whitespace rules and the fallback of the LLaMA-3 splitter
(unicode.cpp:471-493), given the scan result `s = (count, last_end_r_or_n)`
at the cursor. -/
def llama3_ws_step (flagsOf : Nat → codepoint_flags) (cpts : List Nat)
    (offset_ini offset_end pos prev_end : Nat) (acc : List Nat) (s : Nat × Nat) :
    Nat × Nat × List Nat :=
  -- regex: \s*[\r\n]+  (unicode.cpp:472-476)
  if 0 < s.2 then
    (s.2, s.2, (add_token acc prev_end s.2).1)
  -- regex: \s+(?!\S)  (unicode.cpp:479-483)
  else if 1 < s.1 ∧ seg_get_cpt cpts offset_ini offset_end (pos + s.1) ≠ 0 then
    (pos + s.1 - 1, pos + s.1 - 1, (add_token acc prev_end (pos + s.1 - 1)).1)
  -- regex: \s+  (unicode.cpp:486-490)
  else if 0 < s.1 then
    (pos + s.1, pos + s.1, (add_token acc prev_end (pos + s.1)).1)
  -- no matches  (unicode.cpp:493)
  else
    (pos + 1, pos + 1, (add_token acc prev_end (pos + 1)).1)

/-- One iteration of the per-segment loop of
`unicode_regex_split_custom_llama3` (unicode.cpp:399-494), same conventions
as `gpt2_iter`. The process-global lowercase map behind `unicode_tolower`
(data in unicode-data.cpp, outside the sources) enters as `tolowerFn`. -/
def llama3_iter (flagsOf : Nat → codepoint_flags) (tolowerFn : Nat → Nat) (cpts : List Nat)
    (offset_ini offset_end pos prev_end : Nat) (acc : List Nat) : Nat × Nat × List Nat :=
  -- regex: (?i:'s|'t|'m|'d)  (unicode.cpp:404-409)
  if seg_get_cpt cpts offset_ini offset_end pos = 39 ∧ pos + 1 < offset_end ∧
      (tolowerFn (seg_get_cpt cpts offset_ini offset_end (pos + 1)) = 115 ∨
       tolowerFn (seg_get_cpt cpts offset_ini offset_end (pos + 1)) = 116 ∨
       tolowerFn (seg_get_cpt cpts offset_ini offset_end (pos + 1)) = 109 ∨
       tolowerFn (seg_get_cpt cpts offset_ini offset_end (pos + 1)) = 100) then
    (pos + (add_token acc prev_end (pos + 2)).2, pos + 2, (add_token acc prev_end (pos + 2)).1)
  -- regex: (?i:'re|'ve|'ll)  (unicode.cpp:410-418)
  else if seg_get_cpt cpts offset_ini offset_end pos = 39 ∧ pos + 1 < offset_end ∧
      pos + 2 < offset_end ∧
      ((tolowerFn (seg_get_cpt cpts offset_ini offset_end (pos + 1)) = 114 ∧
        tolowerFn (seg_get_cpt cpts offset_ini offset_end (pos + 2)) = 101) ∨
       (tolowerFn (seg_get_cpt cpts offset_ini offset_end (pos + 1)) = 118 ∧
        tolowerFn (seg_get_cpt cpts offset_ini offset_end (pos + 2)) = 101) ∨
       (tolowerFn (seg_get_cpt cpts offset_ini offset_end (pos + 1)) = 108 ∧
        tolowerFn (seg_get_cpt cpts offset_ini offset_end (pos + 2)) = 108)) then
    (pos + (add_token acc prev_end (pos + 3)).2, pos + 3, (add_token acc prev_end (pos + 3)).1)
  -- regex: [^\r\n\p{L}\p{N}]?\p{L}+  (unicode.cpp:421-431)
  else if ¬ (seg_get_cpt cpts offset_ini offset_end pos = 13 ∨
        seg_get_cpt cpts offset_ini offset_end pos = 10 ∨
        (seg_get_flags flagsOf cpts offset_ini offset_end pos).is_number) ∧
      ((seg_get_flags flagsOf cpts offset_ini offset_end pos).is_letter ∨
       (seg_get_flags flagsOf cpts offset_ini offset_end (pos + 1)).is_letter) then
    (run_while (fun q => (seg_get_flags flagsOf cpts offset_ini offset_end q).is_letter)
        (pos + 1) (offset_end - (pos + 1)),
     run_while (fun q => (seg_get_flags flagsOf cpts offset_ini offset_end q).is_letter)
        (pos + 1) (offset_end - (pos + 1)),
     (add_token acc prev_end
        (run_while (fun q => (seg_get_flags flagsOf cpts offset_ini offset_end q).is_letter)
          (pos + 1) (offset_end - (pos + 1)))).1)
  -- regex: \p{N}{1,3}  (unicode.cpp:434-443)
  else if (seg_get_flags flagsOf cpts offset_ini offset_end pos).is_number then
    ((digit_run (fun q => (seg_get_flags flagsOf cpts offset_ini offset_end q).is_number)
        acc pos pos prev_end (offset_end - pos)).2.1,
     (digit_run (fun q => (seg_get_flags flagsOf cpts offset_ini offset_end q).is_number)
        acc pos pos prev_end (offset_end - pos)).2.1,
     (add_token
        (digit_run (fun q => (seg_get_flags flagsOf cpts offset_ini offset_end q).is_number)
          acc pos pos prev_end (offset_end - pos)).1
        (digit_run (fun q => (seg_get_flags flagsOf cpts offset_ini offset_end q).is_number)
          acc pos pos prev_end (offset_end - pos)).2.2
        (digit_run (fun q => (seg_get_flags flagsOf cpts offset_ini offset_end q).is_number)
          acc pos pos prev_end (offset_end - pos)).2.1).1)
  -- regex: <space>?[^\s\p{L}\p{N}]+[\r\n]*  (unicode.cpp:447-458)
  else if (seg_flags2 flagsOf cpts offset_ini offset_end pos).other_class then
    llama3_other_step flagsOf cpts offset_ini offset_end pos prev_end acc
      (run_while (fun q => (seg_get_flags flagsOf cpts offset_ini offset_end q).other_class)
        (seg_pos1 cpts offset_ini offset_end pos)
        (offset_end - seg_pos1 cpts offset_ini offset_end pos))
  else
    llama3_ws_step flagsOf cpts offset_ini offset_end pos prev_end acc
      (ws_scan (fun q => (seg_get_flags flagsOf cpts offset_ini offset_end q).is_whitespace)
        (seg_get_cpt cpts offset_ini offset_end) pos 0 0 (offset_end - pos))

/-- The per-segment loop of `unicode_regex_split_custom_llama3`
(unicode.cpp:399-494), fuel-indexed over `llama3_iter`. -/
def llama3_go (flagsOf : Nat → codepoint_flags) (tolowerFn : Nat → Nat) (cpts : List Nat)
    (offset_ini offset_end : Nat) : Nat → Nat → Nat → List Nat → List Nat
  | 0, _, _, acc => acc
  | fuel + 1, pos, prev_end, acc =>
    if pos < offset_end then
      llama3_go flagsOf tolowerFn cpts offset_ini offset_end fuel
        (llama3_iter flagsOf tolowerFn cpts offset_ini offset_end pos prev_end acc).1
        (llama3_iter flagsOf tolowerFn cpts offset_ini offset_end pos prev_end acc).2.1
        (llama3_iter flagsOf tolowerFn cpts offset_ini offset_end pos prev_end acc).2.2
    else acc

/-- The outer segment loop shared by both custom splitters
(unicode.cpp:249-253 and 367-371): each input offset delimits the segment
`[start, start + offset)`; the same `bpe_offsets` accumulator is threaded
through all segments. -/
def split_segments (seg : Nat → Nat → List Nat → List Nat) :
    Nat → List Nat → List Nat → List Nat
  | _, [], acc => acc
  | start, offset :: rest, acc =>
    split_segments seg (start + offset) rest (seg start (start + offset) acc)

/-- Embedding of `unicode_regex_split_custom_gpt2` (unicode.cpp:242-357);
the per-segment fuel `offset` bounds the loop iteration count (the cursor
strictly advances inside `[start, start + offset)`). -/
def unicode_regex_split_custom_gpt2 (flagsOf : Nat → codepoint_flags) (text : List Nat)
    (offsets : List Nat) : Except UnicodeError (List Nat) :=
  match unicode_cpts_from_utf8 text with
  | Except.error e => Except.error e
  | Except.ok cpts =>
    Except.ok (split_segments
      (fun start stop acc => gpt2_go flagsOf cpts start stop (stop - start) start start acc)
      0 offsets [])

/-- Embedding of `unicode_regex_split_custom_llama3` (unicode.cpp:360-498). -/
def unicode_regex_split_custom_llama3 (flagsOf : Nat → codepoint_flags)
    (tolowerFn : Nat → Nat) (text : List Nat) (offsets : List Nat) :
    Except UnicodeError (List Nat) :=
  match unicode_cpts_from_utf8 text with
  | Except.error e => Except.error e
  | Except.ok cpts =>
    Except.ok (split_segments
      (fun start stop acc =>
        llama3_go flagsOf tolowerFn cpts start stop (stop - start) start start acc)
      0 offsets [])

/-- Modelled from the spec: ASCII rows of the Unicode property table. The
aggregated table is built in `unicode_cpt_flags_array` from the data of
unicode-data.cpp, which is not among the sources; for ASCII the categories
are pinned down by the collapse map `k_ucat_map` in unicode.cpp:674-678
(digits `0-9` are NUMBER, `A-Za-z` are LETTER, and the listed punctuation
bytes are PUNCTUATION) and by §4.2 and §8 of the spec (space is a
whitespace SEPARATOR; tab, LF, VT, FF, CR are whitespace CONTROLs; other
C0 bytes are CONTROL; the remaining visible ASCII are SYMBOL). Codepoints
at 128 and above are left UNDEFINED by this model, so theorems
instantiated with it speak about ASCII inputs. -/
def ascii_flags (c : Nat) : codepoint_flags :=
  if c = 32 then { is_separator := true, is_whitespace := true }
  else if 9 ≤ c ∧ c ≤ 13 then { is_control := true, is_whitespace := true }
  else if c < 32 ∨ c = 127 then { is_control := true }
  else if 48 ≤ c ∧ c ≤ 57 then { is_number := true }
  else if 65 ≤ c ∧ c ≤ 90 then { is_letter := true, is_uppercase := true }
  else if 97 ≤ c ∧ c ≤ 122 then { is_letter := true, is_lowercase := true }
  else if (33 ≤ c ∧ c ≤ 35) ∨ (37 ≤ c ∧ c ≤ 42) ∨ (44 ≤ c ∧ c ≤ 47) ∨
      (58 ≤ c ∧ c ≤ 59) ∨ (63 ≤ c ∧ c ≤ 64) ∨ (91 ≤ c ∧ c ≤ 93) ∨ c = 95 ∨
      c = 123 ∨ c = 125 then { is_punctuation := true }
  else if c < 128 then { is_symbol := true }
  else { is_undefined := true }

/-- Modelled from the spec: `unicode_tolower` (unicode.cpp:655-658) looks
up `unicode_map_lowercase`, whose data is in unicode-data.cpp, outside the
sources; on ASCII the simple lowercase map sends `A`..`Z` to `a`..`z` and
leaves everything else unchanged. -/
def ascii_tolower (c : Nat) : Nat :=
  if 65 ≤ c ∧ c ≤ 90 then c + 32 else c

/-- Embedding of the per-segment match loop of `unicode_regex_split_stl`
(unicode.cpp:531-558, and its wide-string twin at 501-528): walk the match
list of one segment in iteration order, pushing the gap before each match
(when nonempty) and the match length, then the tail after the last match
(when nonempty). `ms` holds the (position, length) pairs the `std::regex`
engine reports, positions relative to the segment start. -/
def stl_seg (ms : List (Nat × Nat)) (offset : Nat) (start_idx : Nat) : List Nat :=
  match ms with
  | [] => if start_idx < offset then [offset - start_idx] else []
  | (p, l) :: rest =>
    (if start_idx < p then [p - start_idx] else []) ++ [l] ++ stl_seg rest offset (p + l)

/-- Embedding of `unicode_regex_split_stl` (unicode.cpp:531-558): the
`std::regex` engine is external to this repository, so it enters as the
abstract `matcher`, where `matcher start offset` is the match list the
engine reports for the segment of length `offset` starting at codepoint
`start`. -/
def unicode_regex_split_stl (matcher : Nat → Nat → List (Nat × Nat)) :
    Nat → List Nat → List Nat
  | _, [] => []
  | start, offset :: rest =>
    stl_seg (matcher start offset) offset 0 ++
      unicode_regex_split_stl matcher (start + offset) rest

/-- The guarantees `std::regex_iterator` provides for the match list of
one segment: matches come in increasing positions, do not overlap, and lie
within the segment. -/
def stl_matches_valid : Nat → Nat → List (Nat × Nat) → Prop
  | _, _, [] => True
  | s, offset, (p, l) :: rest => s ≤ p ∧ p + l ≤ offset ∧ stl_matches_valid (p + l) offset rest

/-- The `range_nfd` record of unicode.h: every codepoint in
`[first, last]` decomposes to `nfd`. -/
structure range_nfd where
  first : Nat
  last : Nat
  nfd : Nat
deriving DecidableEq

/-- The per-codepoint body of `unicode_cpts_normalize_nfd`
(unicode.cpp:613-616). The table `unicode_ranges_nfd` lives in
unicode-data.cpp (not among the sources) and enters as the parameter `t`.
On a table sorted by `first`, `std::upper_bound(cbegin, cend, cpt, comp) - 1`
is the last entry whose `first` is at most `cpt`, here
`(t.takeWhile (fun r => r.first ≤ cpt)).getLast?`; when every entry has
`first > cpt` the C++ dereferences one before the array (undefined
behavior, unreachable with the real table, whose first entry is the zero
sentinel) - modelled by returning `cpt` unchanged. -/
def unicode_nfd_map (t : List range_nfd) (cpt : Nat) : Nat :=
  match (t.takeWhile (fun r => r.first ≤ cpt)).getLast? with
  | none => cpt
  | some it => if it.first ≤ cpt ∧ cpt ≤ it.last then it.nfd else cpt

/-- Embedding of `unicode_cpts_normalize_nfd` (unicode.cpp:608-619):
elementwise table lookup; the result has the same length as the input. -/
def unicode_cpts_normalize_nfd (t : List range_nfd) (cpts : List Nat) : List Nat :=
  cpts.map (unicode_nfd_map t)

/-- The GPT-2 pre-token pattern string of unicode.cpp:563, as its byte values. -/
def regex_expr_gpt2 : List Nat :=
  [39, 115, 124, 39, 116, 124, 39, 114, 101, 124, 39, 118, 101, 124, 39, 109, 124, 39, 108, 
   108, 124, 39, 100, 124, 32, 63, 92, 112, 123, 76, 125, 43, 124, 32, 63, 92, 112, 123, 
   78, 125, 43, 124, 32, 63, 91, 94, 92, 115, 92, 112, 123, 76, 125, 92, 112, 123, 78, 125, 
   93, 43, 124, 92, 115, 43, 40, 63, 33, 92, 83, 41]

/-- The first accepted LLaMA-3 pre-token pattern string of unicode.cpp:566, as its byte values. -/
def regex_expr_llama3 : List Nat :=
  [40, 63, 105, 58, 39, 115, 124, 39, 116, 124, 39, 114, 101, 124, 39, 118, 101, 124, 39, 
   109, 124, 39, 108, 108, 124, 39, 100, 41, 124, 91, 94, 92, 114, 92, 110, 92, 112, 123, 
   76, 125, 92, 112, 123, 78, 125, 93, 63, 92, 112, 123, 76, 125, 43, 124, 92, 112, 123, 
   78, 125, 123, 49, 44, 51, 125, 124, 32, 63, 91, 94, 92, 115, 92, 112, 123, 76, 125, 92, 
   112, 123, 78, 125, 93, 43, 91, 92, 114, 92, 110, 93, 42, 124, 92, 115, 42, 91, 92, 114, 
   92, 110, 93, 43, 124, 92, 115, 43, 40, 63, 33, 92, 83, 41, 124, 92, 115, 43]

/-- The second accepted LLaMA-3 pre-token pattern string of unicode.cpp:567, as its byte values. -/
def regex_expr_llama3_alt : List Nat :=
  [40, 63, 58, 39, 91, 115, 83, 93, 124, 39, 91, 116, 84, 93, 124, 39, 91, 114, 82, 93, 91, 
   101, 69, 93, 124, 39, 91, 118, 86, 93, 91, 101, 69, 93, 124, 39, 91, 109, 77, 93, 124, 
   39, 91, 108, 76, 93, 91, 108, 76, 93, 124, 39, 91, 100, 68, 93, 41, 124, 91, 94, 92, 
   114, 92, 110, 92, 112, 123, 76, 125, 92, 112, 123, 78, 125, 93, 63, 92, 112, 123, 76, 
   125, 43, 124, 92, 112, 123, 78, 125, 123, 49, 44, 51, 125, 124, 32, 63, 91, 94, 92, 115, 
   92, 112, 123, 76, 125, 92, 112, 123, 78, 125, 93, 43, 91, 92, 114, 92, 110, 93, 42, 124, 
   92, 115, 42, 91, 92, 114, 92, 110, 93, 43, 124, 92, 115, 43, 40, 63, 33, 92, 83, 41, 
   124, 92, 115, 43]

/-- The ASCII character-class expansion of the punctuation category, k_ucat_map in unicode.cpp:677, as its byte values. -/
def k_ucat_map_punct : List Nat :=
  [33, 45, 35, 37, 45, 42, 44, 45, 47, 58, 45, 59, 63, 45, 64, 92, 91, 45, 92, 93, 95, 92, 
   123, 92, 125]

/-- The substring test `std::string::npos != hay.find(needle)`
(unicode.cpp:685 and 735). -/
def contains_sub (needle : List Nat) : List Nat → Bool
  | [] => needle.isPrefixOf []
  | b :: rest => needle.isPrefixOf (b :: rest) || contains_sub needle rest

/-- The byte values of the three category patterns recognized by the
fallback, keys of `k_ucat_enum` (unicode.cpp:662-666). -/
def cat_pat_N : List Nat := [92, 112, 123, 78, 125]

def cat_pat_L : List Nat := [92, 112, 123, 76, 125]

def cat_pat_P : List Nat := [92, 112, 123, 80, 125]

/-- Embedding of `k_ucat_enum` (unicode.cpp:662-666): category pattern to
category flag value, in the key order of the `std::map`. -/
def k_ucat_enum : List (List Nat × Nat) :=
  [(cat_pat_L, 0x0004), (cat_pat_N, 0x0002), (cat_pat_P, 0x0020)]

/-- Embedding of `k_ucat_cpt` (unicode.cpp:668-672): category flag to
stand-in byte. -/
def k_ucat_cpt : List (Nat × Nat) :=
  [(0x0002, 0xD1), (0x0004, 0xD2), (0x0020, 0xD3)]

/-- Embedding of `k_ucat_map` (unicode.cpp:674-678): category flag to the
matching ASCII character-class bytes. -/
def k_ucat_map : List (Nat × List Nat) :=
  [(0x0002, [0x30, 0x2D, 0x39]),
   (0x0004, [0x41, 0x2D, 0x5A, 0x61, 0x2D, 0x7A]),
   (0x0020, k_ucat_map_punct)]

/-- Embedding of `unicode_regex_split_custom` (unicode.cpp:560-573):
dispatch on the literal pattern string; an unrecognized pattern yields the
empty offset list. -/
def unicode_regex_split_custom (flagsOf : Nat → codepoint_flags) (tolowerFn : Nat → Nat)
    (text : List Nat) (regex_expr : List Nat) (offsets : List Nat) :
    Except UnicodeError (List Nat) :=
  if regex_expr = regex_expr_gpt2 then
    unicode_regex_split_custom_gpt2 flagsOf text offsets
  else if regex_expr = regex_expr_llama3 ∨ regex_expr = regex_expr_llama3_alt then
    unicode_regex_split_custom_llama3 flagsOf tolowerFn text offsets
  else
    Except.ok []

/-- The per-codepoint collapse of `unicode_regex_split`
(unicode.cpp:701-715): ASCII codepoints keep their value, others collapse
to the stand-in byte of their category, 0xD0 as fallback. -/
def collapse_cpt (flagsOf : Nat → codepoint_flags) (c : Nat) : Nat :=
  if c < 128 then c
  else
    match k_ucat_cpt.lookup (flagsOf c).category_flag with
    | some b => b
    | none => 0xD0

/-- The regex rewrite loop of `unicode_regex_split` (unicode.cpp:751-788):
track whether the scanner is inside a character class (`\[` and `\]` do
not toggle, checked through the previous byte `prev`), and replace each
recognized 5-byte category pattern by its stand-in byte plus ASCII class,
wrapped in fresh brackets when outside a class. The `.getD` defaults are
unreachable: the looked-up category always comes from `k_ucat_enum` and
both `k_ucat_cpt` and `k_ucat_map` are keyed by the same three values
(`map.at` in the C++). -/
def regex_collapse_rewrite (prev : Option Nat) (inside : Bool) : List Nat → List Nat
  | [] => []
  | c :: rest =>
    if c = 91 ∧ (prev = none ∨ ¬ prev = some 92) then
      91 :: regex_collapse_rewrite (some 91) true rest
    else if inside ∧ c = 93 ∧ ¬ prev = some 92 then
      93 :: regex_collapse_rewrite (some 93) false rest
    else if c = 92 ∧ 4 ≤ rest.length ∧ rest.getD 0 0 = 112 ∧ rest.getD 1 0 = 123 ∧
        rest.getD 3 0 = 125 then
      match k_ucat_enum.lookup [92, 112, 123, rest.getD 2 0, 125] with
      | some cat =>
        (if inside then [] else [91]) ++ [(k_ucat_cpt.lookup cat).getD 0] ++
          (k_ucat_map.lookup cat).getD [] ++ (if inside then [] else [93]) ++
          regex_collapse_rewrite (some 125) inside (rest.drop 4)
      | none => c :: regex_collapse_rewrite (some c) inside rest
    else c :: regex_collapse_rewrite (some c) inside rest
termination_by l => l.length
decreasing_by all_goals (simp; try omega)

/-- The inner byte loop of `unicode_byte_encoding_process`
(unicode.cpp:233-235): `map.at` throwing on a missing key becomes
`UnknownEncodedByte` (unreachable: every byte below 256 is mapped). -/
def unicode_byte_list_encode : List Nat → Except UnicodeError (List Nat)
  | [] => Except.ok []
  | b :: rest =>
    match unicode_byte_to_utf8 b with
    | none => Except.error UnicodeError.UnknownEncodedByte
    | some s =>
      match unicode_byte_list_encode rest with
      | Except.error e => Except.error e
      | Except.ok rest2 => Except.ok (s ++ rest2)

/-- Embedding of `unicode_byte_encoding_process` (unicode.cpp:223-239):
re-normalize each pre-token through the codec, then replace each byte by
its visible-codepoint UTF-8 string. -/
def unicode_byte_encoding_process : List (List Nat) → Except UnicodeError (List (List Nat))
  | [] => Except.ok []
  | word :: rest =>
    match unicode_cpts_from_utf8 word with
    | Except.error e => Except.error e
    | Except.ok utf_word =>
      match unicode_cpts_to_utf8 utf_word with
      | Except.error e => Except.error e
      | Except.ok text_utf =>
        match unicode_byte_list_encode text_utf with
        | Except.error e => Except.error e
        | Except.ok encoded =>
          match unicode_byte_encoding_process rest with
          | Except.error e => Except.error e
          | Except.ok rest2 => Except.ok (encoded :: rest2)

/-- The pre-token reassembly of `unicode_regex_split`
(unicode.cpp:809-819): materialize each codepoint range back into UTF-8.
-/
def words_from_offsets (cpts : List Nat) : Nat → List Nat →
    Except UnicodeError (List (List Nat))
  | _, [] => Except.ok []
  | start, offset :: rest =>
    match unicode_cpts_to_utf8 ((cpts.drop start).take offset) with
    | Except.error e => Except.error e
    | Except.ok word =>
      match words_from_offsets cpts (start + offset) rest with
      | Except.error e => Except.error e
      | Except.ok rest2 => Except.ok (word :: rest2)

/-- The per-pattern loop of `unicode_regex_split` (unicode.cpp:720-807).
The `std::regex` engine (and the `std::wstring` conversion of the direct
path) is external to this repository; it enters as `engine`, called with
the collapsed flag, the text (collapsed or raw), the pattern (rewritten or
raw) and the current offsets; an engine error is the caught
`std::regex_error`, rethrown as `RegexFailure`. -/
def unicode_regex_split_loop (flagsOf : Nat → codepoint_flags) (tolowerFn : Nat → Nat)
    (engine : Bool → List Nat → List Nat → List Nat → Except Unit (List Nat))
    (text text_collapsed : List Nat) :
    List (List Nat) → List Nat → Except UnicodeError (List Nat)
  | [], offsets => Except.ok offsets
  | regex_expr :: rest, offsets =>
    match unicode_regex_split_custom flagsOf tolowerFn text regex_expr offsets with
    | Except.error e => Except.error e
    | Except.ok tmp =>
      if ¬ tmp = [] then
        unicode_regex_split_loop flagsOf tolowerFn engine text text_collapsed rest tmp
      else if k_ucat_enum.any (fun u => contains_sub u.1 regex_expr) then
        match unicode_cpts_from_utf8 regex_expr with
        | Except.error e => Except.error e
        | Except.ok cpts_regex =>
          if cpts_regex.any (fun c => 128 ≤ c) then
            Except.error UnicodeError.MixedCategoryAndLiteral
          else
            match engine true text_collapsed
                (regex_collapse_rewrite none false regex_expr) offsets with
            | Except.error _ => Except.error UnicodeError.RegexFailure
            | Except.ok offsets2 =>
              unicode_regex_split_loop flagsOf tolowerFn engine text text_collapsed rest offsets2
      else
        match engine false text regex_expr offsets with
        | Except.error _ => Except.error UnicodeError.RegexFailure
        | Except.ok offsets2 =>
          unicode_regex_split_loop flagsOf tolowerFn engine text text_collapsed rest offsets2

/-- Embedding of `unicode_regex_split` (unicode.cpp:660-822): decode the
text, build the collapsed text if any pattern uses a category class, apply
the splitters in order, reassemble the pre-tokens and pass them through
the byte encoder. -/
def unicode_regex_split (flagsOf : Nat → codepoint_flags) (tolowerFn : Nat → Nat)
    (engine : Bool → List Nat → List Nat → List Nat → Except Unit (List Nat))
    (text : List Nat) (regex_exprs : List (List Nat)) :
    Except UnicodeError (List (List Nat)) :=
  match unicode_cpts_from_utf8 text with
  | Except.error e => Except.error e
  | Except.ok cpts =>
    match unicode_regex_split_loop flagsOf tolowerFn engine text
        (if regex_exprs.any (fun r => k_ucat_enum.any (fun u => contains_sub u.1 r)) then
          cpts.map (collapse_cpt flagsOf)
        else [])
        regex_exprs [cpts.length] with
    | Except.error e => Except.error e
    | Except.ok offsets =>
      match words_from_offsets cpts 0 offsets with
      | Except.error e => Except.error e
      | Except.ok words => unicode_byte_encoding_process words

/-- A token of length `L` starting at codepoint position `p` in an offset
list: offsets are consecutive token lengths, so token `i` starts at the
sum of the first `i` offsets. -/
def token_at (offs : List Nat) (p L : Nat) : Bool :=
  (List.range offs.length).any (fun i => ((offs.take i).sum == p) && (offs.getD i 0 == L))

/-! ### Theorems -/

theorem utf8_lead2_facts : ∀ v < 32, (0xc0 ||| v) &&& 0x80 = 0x80 ∧ (0xc0 ||| v) &&& 0x40 = 0x40 ∧ (0xc0 ||| v) &&& 0x20 = 0 ∧ (0xc0 ||| v) &&& 0x1f = v := by decide

theorem utf8_lead3_facts : ∀ v < 16, (0xe0 ||| v) &&& 0x80 = 0x80 ∧ (0xe0 ||| v) &&& 0x40 = 0x40 ∧ (0xe0 ||| v) &&& 0x20 = 0x20 ∧ (0xe0 ||| v) &&& 0x10 = 0 ∧ (0xe0 ||| v) &&& 0x0f = v := by decide

theorem utf8_lead4_facts : ∀ v < 8, (0xf0 ||| v) &&& 0x80 = 0x80 ∧ (0xf0 ||| v) &&& 0x40 = 0x40 ∧ (0xf0 ||| v) &&& 0x20 = 0x20 ∧ (0xf0 ||| v) &&& 0x10 = 0x10 ∧ (0xf0 ||| v) &&& 0x08 = 0 ∧ (0xf0 ||| v) &&& 0x07 = v := by decide

theorem utf8_cont_facts : ∀ v < 64, (0x80 ||| v) &&& 0xc0 = 0x80 ∧ (0x80 ||| v) &&& 0x3f = v := by decide

theorem ascii_low_facts : ∀ v < 128, v &&& 0x80 = 0 := by decide

theorem shiftLeft_or_eq_add (a b k : Nat) (hb : b < 2 ^ k) : (a <<< k) ||| b = a * 2 ^ k + b := by
  rw [Nat.shiftLeft_eq, Nat.mul_comm]
  exact (Nat.mul_add_lt_is_or hb a).symm

theorem decode_one_byte (v : Nat) (hv : v < 128) :
    unicode_cpts_from_utf8 [v] = Except.ok [v] := by
  simp [unicode_cpts_from_utf8, unicode_cpts_from_utf8_go, unicode_cpt_from_utf8,
        ascii_low_facts v hv]

theorem decode_two_bytes (x y : Nat) (hx : x < 32) (hy : y < 64) :
    unicode_cpts_from_utf8 [0xc0 ||| x, 0x80 ||| y] = Except.ok [64 * x + y] := by
  obtain ⟨h1, h2, h3, h4⟩ := utf8_lead2_facts x hx
  obtain ⟨c1, c2⟩ := utf8_cont_facts y hy
  have hrec : ((0xc0 ||| x) &&& 0x1f) <<< 6 ||| ((0x80 ||| y) &&& 0x3f) = 64 * x + y := by
    rw [h4, c2, shiftLeft_or_eq_add x y 6 (by omega)]
    omega
  simp [unicode_cpts_from_utf8, unicode_cpts_from_utf8_go, unicode_cpt_from_utf8,
        h1, h2, h3, c1, hrec]

theorem decode_three_bytes (x y z : Nat) (hx : x < 16) (hy : y < 64) (hz : z < 64) :
    unicode_cpts_from_utf8 [0xe0 ||| x, 0x80 ||| y, 0x80 ||| z] =
      Except.ok [4096 * x + 64 * y + z] := by
  obtain ⟨h1, h2, h3, h4, h5⟩ := utf8_lead3_facts x hx
  obtain ⟨c1, c2⟩ := utf8_cont_facts y hy
  obtain ⟨d1, d2⟩ := utf8_cont_facts z hz
  have e1 : (x <<< 12) ||| (y <<< 6) = 2 ^ 6 * (64 * x + y) := by
    rw [shiftLeft_or_eq_add x _ 12 (by rw [Nat.shiftLeft_eq]; norm_num; omega),
        Nat.shiftLeft_eq]
    ring
  have hrec : ((0xe0 ||| x) &&& 0x0f) <<< 12 ||| (((0x80 ||| y) &&& 0x3f) <<< 6) |||
      ((0x80 ||| z) &&& 0x3f) = 4096 * x + 64 * y + z := by
    rw [h5, c2, d2, e1, ← Nat.mul_add_lt_is_or (show z < 2 ^ 6 by omega) (64 * x + y)]
    ring
  simp [unicode_cpts_from_utf8, unicode_cpts_from_utf8_go, unicode_cpt_from_utf8,
        h1, h2, h3, h4, c1, d1, hrec]

theorem decode_four_bytes (x y z w : Nat) (hx : x < 8) (hy : y < 64) (hz : z < 64)
    (hw : w < 64) :
    unicode_cpts_from_utf8 [0xf0 ||| x, 0x80 ||| y, 0x80 ||| z, 0x80 ||| w] =
      Except.ok [262144 * x + 4096 * y + 64 * z + w] := by
  obtain ⟨h1, h2, h3, h4, h5, h6⟩ := utf8_lead4_facts x hx
  obtain ⟨c1, c2⟩ := utf8_cont_facts y hy
  obtain ⟨d1, d2⟩ := utf8_cont_facts z hz
  obtain ⟨f1, f2⟩ := utf8_cont_facts w hw
  have e1 : (x <<< 18) ||| (y <<< 12) = 2 ^ 12 * (64 * x + y) := by
    rw [shiftLeft_or_eq_add x _ 18 (by rw [Nat.shiftLeft_eq]; norm_num; omega),
        Nat.shiftLeft_eq]
    ring
  have e2 : ((x <<< 18) ||| (y <<< 12)) ||| (z <<< 6) =
      2 ^ 6 * (4096 * x + 64 * y + z) := by
    rw [e1, ← Nat.mul_add_lt_is_or (show z <<< 6 < 2 ^ 12 by rw [Nat.shiftLeft_eq]; norm_num; omega) (64 * x + y),
        Nat.shiftLeft_eq]
    ring
  have hrec : ((0xf0 ||| x) &&& 0x07) <<< 18 ||| (((0x80 ||| y) &&& 0x3f) <<< 12) |||
      (((0x80 ||| z) &&& 0x3f) <<< 6) ||| ((0x80 ||| w) &&& 0x3f) =
      262144 * x + 4096 * y + 64 * z + w := by
    rw [h6, c2, d2, f2, e2,
        ← Nat.mul_add_lt_is_or (show w < 2 ^ 6 by omega) (4096 * x + 64 * y + z)]
    ring
  simp [unicode_cpts_from_utf8, unicode_cpts_from_utf8_go, unicode_cpt_from_utf8,
        h1, h2, h3, h4, h5, c1, d1, f1, hrec]

theorem utf8_round_one (cp : Nat) (h : cp ≤ 0x7f) :
    (unicode_cpt_to_utf8 cp).bind unicode_cpts_from_utf8 = Except.ok [cp] := by
  have henc : unicode_cpt_to_utf8 cp = Except.ok [cp] := by
    rw [unicode_cpt_to_utf8, if_pos h]
  rw [henc]
  exact decode_one_byte cp (by omega)

theorem utf8_round_two (cp : Nat) (hlo : 0x80 ≤ cp) (hhi : cp ≤ 0x7ff) :
    (unicode_cpt_to_utf8 cp).bind unicode_cpts_from_utf8 = Except.ok [cp] := by
  have hx : (cp >>> 6) &&& 0x1f = cp / 64 % 32 := by
    rw [Nat.shiftRight_eq_div_pow]
    have h := Nat.and_pow_two_sub_one_eq_mod (cp / 2 ^ 6) 5
    norm_num at h ⊢
    exact h
  have hy : cp &&& 0x3f = cp % 64 := by
    have h := Nat.and_pow_two_sub_one_eq_mod cp 6
    norm_num at h ⊢
    exact h
  have henc : unicode_cpt_to_utf8 cp =
      Except.ok [0xc0 ||| (cp / 64 % 32), 0x80 ||| (cp % 64)] := by
    rw [unicode_cpt_to_utf8, if_neg (by omega), if_pos ⟨hlo, hhi⟩, hx, hy]
  rw [henc]
  show unicode_cpts_from_utf8 _ = _
  rw [decode_two_bytes _ _ (Nat.mod_lt _ (by norm_num)) (Nat.mod_lt _ (by norm_num))]
  have : 64 * (cp / 64 % 32) + cp % 64 = cp := by omega
  rw [this]

theorem utf8_round_three (cp : Nat) (hlo : 0x800 ≤ cp) (hhi : cp ≤ 0xffff) :
    (unicode_cpt_to_utf8 cp).bind unicode_cpts_from_utf8 = Except.ok [cp] := by
  have hx : (cp >>> 12) &&& 0x0f = cp / 4096 % 16 := by
    rw [Nat.shiftRight_eq_div_pow]
    have h := Nat.and_pow_two_sub_one_eq_mod (cp / 2 ^ 12) 4
    norm_num at h ⊢
    exact h
  have hy : (cp >>> 6) &&& 0x3f = cp / 64 % 64 := by
    rw [Nat.shiftRight_eq_div_pow]
    have h := Nat.and_pow_two_sub_one_eq_mod (cp / 2 ^ 6) 6
    norm_num at h ⊢
    exact h
  have hz : cp &&& 0x3f = cp % 64 := by
    have h := Nat.and_pow_two_sub_one_eq_mod cp 6
    norm_num at h ⊢
    exact h
  have henc : unicode_cpt_to_utf8 cp =
      Except.ok [0xe0 ||| (cp / 4096 % 16), 0x80 ||| (cp / 64 % 64), 0x80 ||| (cp % 64)] := by
    rw [unicode_cpt_to_utf8, if_neg (by omega), if_neg (by omega), if_pos ⟨hlo, hhi⟩,
        hx, hy, hz]
  rw [henc]
  show unicode_cpts_from_utf8 _ = _
  rw [decode_three_bytes _ _ _ (Nat.mod_lt _ (by norm_num)) (Nat.mod_lt _ (by norm_num))
    (Nat.mod_lt _ (by norm_num))]
  have : 4096 * (cp / 4096 % 16) + 64 * (cp / 64 % 64) + cp % 64 = cp := by omega
  rw [this]

theorem utf8_round_four (cp : Nat) (hlo : 0x10000 ≤ cp) (hhi : cp ≤ 0x10ffff) :
    (unicode_cpt_to_utf8 cp).bind unicode_cpts_from_utf8 = Except.ok [cp] := by
  have hx : (cp >>> 18) &&& 0x07 = cp / 262144 % 8 := by
    rw [Nat.shiftRight_eq_div_pow]
    have h := Nat.and_pow_two_sub_one_eq_mod (cp / 2 ^ 18) 3
    norm_num at h ⊢
    exact h
  have hy : (cp >>> 12) &&& 0x3f = cp / 4096 % 64 := by
    rw [Nat.shiftRight_eq_div_pow]
    have h := Nat.and_pow_two_sub_one_eq_mod (cp / 2 ^ 12) 6
    norm_num at h ⊢
    exact h
  have hz : (cp >>> 6) &&& 0x3f = cp / 64 % 64 := by
    rw [Nat.shiftRight_eq_div_pow]
    have h := Nat.and_pow_two_sub_one_eq_mod (cp / 2 ^ 6) 6
    norm_num at h ⊢
    exact h
  have hw : cp &&& 0x3f = cp % 64 := by
    have h := Nat.and_pow_two_sub_one_eq_mod cp 6
    norm_num at h ⊢
    exact h
  have henc : unicode_cpt_to_utf8 cp =
      Except.ok [0xf0 ||| (cp / 262144 % 8), 0x80 ||| (cp / 4096 % 64),
                 0x80 ||| (cp / 64 % 64), 0x80 ||| (cp % 64)] := by
    rw [unicode_cpt_to_utf8, if_neg (by omega), if_neg (by omega), if_neg (by omega),
        if_pos ⟨hlo, hhi⟩, hx, hy, hz, hw]
  rw [henc]
  show unicode_cpts_from_utf8 _ = _
  rw [decode_four_bytes _ _ _ _ (Nat.mod_lt _ (by norm_num)) (Nat.mod_lt _ (by norm_num))
    (Nat.mod_lt _ (by norm_num)) (Nat.mod_lt _ (by norm_num))]
  have : 262144 * (cp / 262144 % 8) + 4096 * (cp / 4096 % 64) + 64 * (cp / 64 % 64) +
      cp % 64 = cp := by omega
  rw [this]

/-- C2 candidate -/
theorem c2_utf8_round_trip (cp : Nat) (h : cp ≤ 0x10ffff) :
    (unicode_cpt_to_utf8 cp).bind unicode_cpts_from_utf8 = Except.ok [cp] := by
  by_cases h1 : cp ≤ 0x7f
  · exact utf8_round_one cp h1
  by_cases h2 : cp ≤ 0x7ff
  · exact utf8_round_two cp (by omega) h2
  by_cases h3 : cp ≤ 0xffff
  · exact utf8_round_three cp (by omega) h3
  exact utf8_round_four cp (by omega) h

theorem c2_utf8_round_trip_witness :
    (0x10ffff : Nat) ≤ 0x10ffff ∧
      (unicode_cpt_to_utf8 0x10ffff).bind unicode_cpts_from_utf8 = Except.ok [0x10ffff] :=
  ⟨by decide, c2_utf8_round_trip 0x10ffff (by decide)⟩

theorem and_shift_lt (b m k n : Nat) (h : (m + 1) * 2 ^ k ≤ 2 ^ n) :
    (b &&& m) <<< k < 2 ^ n := by
  rw [Nat.shiftLeft_eq]
  have h1 : b &&& m ≤ m := Nat.and_le_right
  calc (b &&& m) * 2 ^ k ≤ m * 2 ^ k := Nat.mul_le_mul_right _ h1
    _ < (m + 1) * 2 ^ k :=
      (Nat.mul_lt_mul_right (Nat.pos_pow_of_pos k (by omega))).mpr (by omega)
    _ ≤ 2 ^ n := h

theorem unicode_cpt_from_utf8_lt (utf8 : List Nat) (hb : ∀ b ∈ utf8, b < 256)
    (offset c o2 : Nat) (h : unicode_cpt_from_utf8 utf8 offset = Except.ok (c, o2)) :
    c < 0x200000 := by
  rw [unicode_cpt_from_utf8] at h
  split at h
  case isFalse => exact absurd h (by simp)
  case isTrue hoff =>
    have hbyte : utf8.getD offset 0 < 256 := by
      have hmem : utf8.getD offset 0 ∈ utf8 := by
        rw [List.getD_eq_getElem?_getD, List.getElem?_eq_getElem hoff]
        exact List.getElem_mem _
      exact hb _ hmem
    split at h
    · simp only [Except.ok.injEq, Prod.mk.injEq] at h
      omega
    split at h
    · exact absurd h (by simp)
    split at h
    · split at h
      · exact absurd h (by simp)
      · simp only [Except.ok.injEq, Prod.mk.injEq] at h
        obtain ⟨hc, -⟩ := h
        subst hc
        refine lt_of_lt_of_le (Nat.or_lt_two_pow (n := 21) ?_ ?_) (by norm_num)
        · exact and_shift_lt _ _ _ _ (by norm_num)
        · exact Nat.lt_of_le_of_lt Nat.and_le_right (by norm_num)
    split at h
    · split at h
      · exact absurd h (by simp)
      · simp only [Except.ok.injEq, Prod.mk.injEq] at h
        obtain ⟨hc, -⟩ := h
        subst hc
        refine lt_of_lt_of_le (Nat.or_lt_two_pow (n := 21)
          (Nat.or_lt_two_pow ?_ ?_) ?_) (by norm_num)
        · exact and_shift_lt _ _ _ _ (by norm_num)
        · exact and_shift_lt _ _ _ _ (by norm_num)
        · exact Nat.lt_of_le_of_lt Nat.and_le_right (by norm_num)
    split at h
    · split at h
      · exact absurd h (by simp)
      · simp only [Except.ok.injEq, Prod.mk.injEq] at h
        obtain ⟨hc, -⟩ := h
        subst hc
        refine lt_of_lt_of_le (Nat.or_lt_two_pow (n := 21)
          (Nat.or_lt_two_pow (Nat.or_lt_two_pow ?_ ?_) ?_) ?_) (by norm_num)
        · exact and_shift_lt _ _ _ _ (by norm_num)
        · exact and_shift_lt _ _ _ _ (by norm_num)
        · exact and_shift_lt _ _ _ _ (by norm_num)
        · exact Nat.lt_of_le_of_lt Nat.and_le_right (by norm_num)
    · exact absurd h (by simp)

theorem unicode_cpts_from_utf8_go_lt (utf8 : List Nat) (hb : ∀ b ∈ utf8, b < 256) :
    ∀ fuel offset cps, unicode_cpts_from_utf8_go utf8 fuel offset = Except.ok cps →
      ∀ c ∈ cps, c < 0x200000 := by
  intro fuel
  induction fuel with
  | zero =>
    intro offset cps h c hc
    rw [unicode_cpts_from_utf8_go] at h
    split at h
    · exact absurd h (by simp)
    · simp only [Except.ok.injEq] at h
      subst h
      simp at hc
  | succ n ih =>
    intro offset cps h c hc
    rw [unicode_cpts_from_utf8_go] at h
    split at h
    case isTrue hoff =>
      cases hdec : unicode_cpt_from_utf8 utf8 offset with
      | error e => rw [hdec] at h; exact absurd h (by simp)
      | ok pr =>
        obtain ⟨cp, o2⟩ := pr
        rw [hdec] at h
        dsimp only at h
        cases hrest : unicode_cpts_from_utf8_go utf8 n o2 with
        | error e => rw [hrest] at h; exact absurd h (by simp)
        | ok rest =>
          rw [hrest] at h
          simp only [Except.ok.injEq] at h
          subst h
          rcases List.mem_cons.mp hc with h1 | h1
          · subst h1
            exact unicode_cpt_from_utf8_lt utf8 hb offset c o2 hdec
          · exact ih o2 rest hrest c h1
    case isFalse =>
      simp only [Except.ok.injEq] at h
      subst h
      simp at hc

/-- C4 amended -/
theorem c4_decoded_cpts_lt (utf8 cps : List Nat) (hb : ∀ b ∈ utf8, b < 256)
    (h : unicode_cpts_from_utf8 utf8 = Except.ok cps) : ∀ c ∈ cps, c < 0x200000 :=
  unicode_cpts_from_utf8_go_lt utf8 hb utf8.length 0 cps h

/-- C4 counterexample -/
theorem c4_counterexample :
    unicode_cpts_from_utf8 [0xF7, 0xBF, 0xBF, 0xBF] = Except.ok [0x1FFFFF] ∧
      ¬ (0x1FFFFF < 0x110000) := ⟨rfl, by norm_num⟩

theorem c4_witness :
    (∀ b ∈ [0xF7, 0xBF, 0xBF, 0xBF], b < 256) ∧ (0x1FFFFF : Nat) < 0x200000 :=
  ⟨by decide, c4_decoded_cpts_lt [0xF7, 0xBF, 0xBF, 0xBF] [0x1FFFFF] (by decide) rfl
    0x1FFFFF (by simp)⟩

/-- C5 counterexample -/
theorem c5_counterexample :
    unicode_cpts_from_utf8 [0xED, 0xA0, 0x80] = Except.ok [0xD800] ∧
      (∀ e, unicode_cpts_from_utf8 [0xED, 0xA0, 0x80] ≠ Except.error e) := by
  refine ⟨rfl, ?_⟩
  intro e h
  rw [show unicode_cpts_from_utf8 [0xED, 0xA0, 0x80] = Except.ok [0xD800] from rfl] at h
  exact Except.noConfusion h

/-- C5 amended -/
theorem c5_surrogate_roundtrip (cp : Nat) (h1 : 0xD800 ≤ cp) (h2 : cp ≤ 0xDFFF) :
    (unicode_cpt_to_utf8 cp).bind unicode_cpts_from_utf8 = Except.ok [cp] :=
  utf8_round_three cp (by omega) (by omega)

theorem c5_witness :
    (0xD800 : Nat) ≤ 0xD800 ∧ (0xD800 : Nat) ≤ 0xDFFF ∧
      (unicode_cpt_to_utf8 0xD800).bind unicode_cpts_from_utf8 = Except.ok [0xD800] :=
  ⟨by decide, by decide, c5_surrogate_roundtrip 0xD800 (by decide) (by decide)⟩

theorem encode_ok (cp : Nat) (h : cp ≤ 0x10ffff) :
    unicode_cpt_to_utf8 cp = Except.ok (cpt_to_utf8_total cp) := by
  rw [cpt_to_utf8_total]
  cases henc : unicode_cpt_to_utf8 cp with
  | ok bs => rfl
  | error e =>
    exfalso
    rw [unicode_cpt_to_utf8] at henc
    split_ifs at henc <;> simp_all <;> omega

theorem decode_total_eq (cp : Nat) (h : cp ≤ 0x10ffff) :
    unicode_cpts_from_utf8 (cpt_to_utf8_total cp) = Except.ok [cp] := by
  have h1 : (unicode_cpt_to_utf8 cp).bind unicode_cpts_from_utf8 = Except.ok [cp] := by
    by_cases h1 : cp ≤ 0x7f
    · exact utf8_round_one cp h1
    by_cases h2 : cp ≤ 0x7ff
    · exact utf8_round_two cp (by omega) h2
    by_cases h3 : cp ≤ 0xffff
    · exact utf8_round_three cp (by omega) h3
    exact utf8_round_four cp (by omega) h
  rw [encode_ok cp h] at h1
  exact h1

theorem cpt_to_utf8_total_inj (a b : Nat) (ha : a ≤ 0x10ffff) (hb : b ≤ 0x10ffff)
    (h : cpt_to_utf8_total a = cpt_to_utf8_total b) : a = b := by
  have r1 := decode_total_eq a ha
  have r2 := decode_total_eq b hb
  rw [h] at r1
  have := r1.symm.trans r2
  simp at this
  exact this

theorem lookup_map_pair (S : List Nat) (f : Nat → List Nat) (b : Nat) (hb : b ∈ S) :
    (S.map (fun ch => (ch, f ch))).lookup b = some (f b) := by
  induction S with
  | nil => simp at hb
  | cons a T ih =>
    simp only [List.map_cons, List.lookup_cons]
    by_cases hba : b = a
    · subst hba; simp
    · rw [beq_false_of_ne hba]
      refine ih ?_
      rcases List.mem_cons.mp hb with h | h
      · exact absurd h hba
      · exact h

theorem lookup_map_pair_some (S : List Nat) (f : Nat → List Nat) (b : Nat) (s : List Nat)
    (h : (S.map (fun ch => (ch, f ch))).lookup b = some s) : b ∈ S ∧ s = f b := by
  induction S with
  | nil => simp at h
  | cons a T ih =>
    simp only [List.map_cons, List.lookup_cons] at h
    by_cases hba : b = a
    · subst hba
      simp at h
      exact ⟨List.mem_cons_self _ _, h.symm⟩
    · rw [beq_false_of_ne hba] at h
      obtain ⟨h1, h2⟩ := ih h
      exact ⟨List.mem_cons_of_mem _ h1, h2⟩

theorem lookup_map_pair_none (S : List Nat) (f : Nat → List Nat) (b : Nat) :
    (S.map (fun ch => (ch, f ch))).lookup b = none ↔ b ∉ S := by
  simp only [List.lookup_eq_none_iff, List.mem_map, bne_iff_ne, ne_eq]
  constructor
  · intro h hmem
    exact h (b, f b) ⟨b, hmem, rfl⟩ rfl
  · intro h p hp heq
    obtain ⟨a, ha, rfl⟩ := hp
    simp at heq
    subst heq
    exact h ha

theorem lookup_rev_pair_some (S : List Nat) (f : Nat → List Nat) (s : List Nat) (b : Nat)
    (h : (S.map (fun ch => (f ch, ch))).lookup s = some b) : b ∈ S ∧ f b = s := by
  induction S with
  | nil => simp at h
  | cons a T ih =>
    simp only [List.map_cons, List.lookup_cons] at h
    by_cases hsa : s = f a
    · subst hsa
      simp at h
      subst h
      exact ⟨List.mem_cons_self _ _, rfl⟩
    · rw [beq_false_of_ne hsa] at h
      obtain ⟨h1, h2⟩ := ih h
      exact ⟨List.mem_cons_of_mem _ h1, h2⟩

theorem lookup_rev_pair (S : List Nat) (f : Nat → List Nat) (b : Nat) (hb : b ∈ S)
    (hinj : ∀ a ∈ S, f a = f b → a = b) :
    (S.map (fun ch => (f ch, ch))).lookup (f b) = some b := by
  induction S with
  | nil => simp at hb
  | cons a T ih =>
    simp only [List.map_cons, List.lookup_cons]
    by_cases hba : f b = f a
    · have hab : a = b := hinj a (List.mem_cons_self _ _) hba.symm
      subst hab
      simp
    · rw [beq_false_of_ne hba]
      have hbT : b ∈ T := by
        rcases List.mem_cons.mp hb with h | h
        · subst h; exact absurd rfl hba
        · exact h
      exact ih hbT (fun a2 ha2 => hinj a2 (List.mem_cons_of_mem _ ha2))

theorem lookup_rev_pair_none (S : List Nat) (f : Nat → List Nat) (s : List Nat) :
    (S.map (fun ch => (f ch, ch))).lookup s = none ↔ ∀ a ∈ S, f a ≠ s := by
  simp [List.lookup_eq_none_iff]
  constructor
  · intro h a ha heq
    exact h a ha heq.symm
  · intro h a ha heq
    exact h a ha heq.symm

theorem unicode_byte_to_utf8_fill_pres (chs : List Nat) :
    ∀ (m : List (Nat × List Nat)) (n b : Nat) (s : List Nat), m.lookup b = some s →
      (unicode_byte_to_utf8_fill m n chs).lookup b = some s := by
  induction chs with
  | nil => intro m n b s h; exact h
  | cons ch T ih =>
    intro m n b s h
    rw [unicode_byte_to_utf8_fill]
    split
    · exact ih _ _ _ _ (by rw [List.lookup_append, h, Option.or_some])
    · exact ih _ _ _ _ h

theorem unicode_utf8_to_byte_fill_pres (chs : List Nat) :
    ∀ (rm : List (List Nat × Nat)) (n : Nat) (s : List Nat) (b : Nat), rm.lookup s = some b →
      (unicode_utf8_to_byte_fill rm n chs).lookup s = some b := by
  induction chs with
  | nil => intro rm n s b h; exact h
  | cons ch T ih =>
    intro rm n s b h
    rw [unicode_utf8_to_byte_fill]
    split
    · exact ih _ _ _ _ (by rw [List.lookup_append, h, Option.or_some])
    · exact ih _ _ _ _ h

theorem unicode_byte_to_utf8_fill_cover (chs : List Nat) :
    ∀ (m : List (Nat × List Nat)) (n ch : Nat), ch ∈ chs →
      ((unicode_byte_to_utf8_fill m n chs).lookup ch).isSome := by
  induction chs with
  | nil => intro m n ch h; simp at h
  | cons a T ih =>
    intro m n ch h
    rw [unicode_byte_to_utf8_fill]
    rcases List.mem_cons.mp h with h1 | h1
    · subst h1
      split
      case isTrue hg =>
        have : (m ++ [(ch, cpt_to_utf8_total (256 + n))]).lookup ch =
            some (cpt_to_utf8_total (256 + n)) := by
          rw [List.lookup_append, Option.isNone_iff_eq_none.mp hg, Option.none_or]
          simp
        rw [unicode_byte_to_utf8_fill_pres T _ _ _ _ this]
        rfl
      case isFalse hg =>
        cases hm : m.lookup ch with
        | none => exact absurd (by rw [hm]; rfl) hg
        | some s =>
          rw [unicode_byte_to_utf8_fill_pres T _ _ _ _ hm]
          rfl
    · split
      · exact ih _ _ _ h1
      · exact ih _ _ _ h1

theorem byte_map_fill_lockstep :
    ∀ (chs : List Nat) (m : List (Nat × List Nat)) (rm : List (List Nat × Nat)) (n : Nat),
      (∀ ch ∈ chs, ch < 256) → chs.Nodup → n + chs.length ≤ 512 →
      (∀ b s, m.lookup b = some s → rm.lookup s = some b) →
      (∀ s b, rm.lookup s = some b → m.lookup b = some s) →
      (∀ ch ∈ chs, (m.lookup ch = none ↔ rm.lookup (cpt_to_utf8_total ch) = none)) →
      (∀ s b, rm.lookup s = some b → ∃ cp, cp < 256 + n ∧ s = cpt_to_utf8_total cp) →
      (∀ b s, (unicode_byte_to_utf8_fill m n chs).lookup b = some s →
        (unicode_utf8_to_byte_fill rm n chs).lookup s = some b) ∧
      (∀ s b, (unicode_utf8_to_byte_fill rm n chs).lookup s = some b →
        (unicode_byte_to_utf8_fill m n chs).lookup b = some s) := by
  intro chs
  induction chs with
  | nil =>
    intro m rm n _ _ _ w1 w2 _ _
    constructor
    · intro b s h
      rw [unicode_byte_to_utf8_fill] at h
      rw [unicode_utf8_to_byte_fill]
      exact w1 b s h
    · intro s b h
      rw [unicode_utf8_to_byte_fill] at h
      rw [unicode_byte_to_utf8_fill]
      exact w2 s b h
  | cons ch T ih =>
    intro m rm n hlt hnd hlen w1 w2 sync prov
    rw [unicode_byte_to_utf8_fill, unicode_utf8_to_byte_fill]
    have hch : ch < 256 := hlt ch (List.mem_cons_self _ _)
    have hsync := sync ch (List.mem_cons_self _ _)
    have hndT := (List.nodup_cons.mp hnd).2
    have hchT := (List.nodup_cons.mp hnd).1
    have hltT : ∀ c ∈ T, c < 256 := fun c hc => hlt c (List.mem_cons_of_mem _ hc)
    have hsyncT := fun c hc => sync c (List.mem_cons_of_mem _ hc)
    by_cases hg : m.lookup ch = none
    · have hg2 : rm.lookup (cpt_to_utf8_total ch) = none := hsync.mp hg
      rw [if_pos (by rw [hg]; rfl), if_pos (by rw [hg2]; rfl)]
      have hnew_rm_none : rm.lookup (cpt_to_utf8_total (256 + n)) = none := by
        cases hr : rm.lookup (cpt_to_utf8_total (256 + n)) with
        | none => rfl
        | some b =>
          obtain ⟨cp, hcp1, hcp2⟩ := prov _ _ hr
          have := cpt_to_utf8_total_inj cp (256 + n) (by omega) (by omega) hcp2.symm
          omega
      refine ih (m ++ [(ch, cpt_to_utf8_total (256 + n))])
        (rm ++ [(cpt_to_utf8_total (256 + n), ch)]) (n + 1) hltT hndT
        (by simp at hlen ⊢; omega) ?_ ?_ ?_ ?_
      · intro b s h
        rw [List.lookup_append] at h
        cases hmb : m.lookup b with
        | some s0 =>
          rw [hmb, Option.or_some] at h
          injection h with h
          subst h
          rw [List.lookup_append, w1 _ _ hmb, Option.or_some]
        | none =>
          rw [hmb, Option.none_or] at h
          by_cases hbc : b = ch
          · subst hbc
            simp at h
            subst h
            rw [List.lookup_append, hnew_rm_none, Option.none_or]
            simp
          · simp [List.lookup_cons, beq_false_of_ne hbc] at h
      · intro s b h
        rw [List.lookup_append] at h
        cases hrs : rm.lookup s with
        | some b0 =>
          rw [hrs, Option.or_some] at h
          injection h with h
          subst h
          rw [List.lookup_append, w2 _ _ hrs, Option.or_some]
        | none =>
          rw [hrs, Option.none_or] at h
          by_cases hsc : s = cpt_to_utf8_total (256 + n)
          · subst hsc
            simp at h
            subst h
            rw [List.lookup_append, hg, Option.none_or]
            simp
          · simp [List.lookup_cons, beq_false_of_ne hsc] at h
      · intro c hcT
        have hcne : c ≠ ch := fun he => hchT (he ▸ hcT)
        have hc256 : c < 256 := hltT c hcT
        have hune : cpt_to_utf8_total c ≠ cpt_to_utf8_total (256 + n) := by
          intro he
          have := cpt_to_utf8_total_inj c (256 + n) (by omega) (by omega) he
          omega
        have e1 : ([(ch, cpt_to_utf8_total (256 + n))] : List (Nat × List Nat)).lookup c =
            none := by simp [List.lookup_cons, beq_false_of_ne hcne]
        have e2 : ([(cpt_to_utf8_total (256 + n), ch)] : List (List Nat × Nat)).lookup
            (cpt_to_utf8_total c) = none := by
          simp [List.lookup_cons, beq_false_of_ne hune]
        rw [List.lookup_append, List.lookup_append, e1, e2, Option.or_none, Option.or_none]
        exact hsyncT c hcT
      · intro s b h
        rw [List.lookup_append] at h
        cases hrs : rm.lookup s with
        | some b0 =>
          obtain ⟨cp, h1, h2⟩ := prov _ _ hrs
          exact ⟨cp, by omega, h2⟩
        | none =>
          rw [hrs, Option.none_or] at h
          by_cases hsc : s = cpt_to_utf8_total (256 + n)
          · exact ⟨256 + n, by omega, hsc⟩
          · simp [List.lookup_cons, beq_false_of_ne hsc] at h
    · have hg2 : ¬ rm.lookup (cpt_to_utf8_total ch) = none := fun he => hg (hsync.mpr he)
      rw [if_neg (fun hb => hg (Option.isNone_iff_eq_none.mp hb)),
          if_neg (fun hb => hg2 (Option.isNone_iff_eq_none.mp hb))]
      exact ih m rm n hltT hndT (by simp at hlen ⊢; omega) w1 w2 hsyncT prov

theorem seed_bytes_lt : ∀ ch ∈ unicode_byte_to_utf8_seed_bytes, ch < 256 := by
  intro ch hc
  simp only [unicode_byte_to_utf8_seed_bytes, List.mem_append, List.mem_range'] at hc
  rcases hc with (⟨i, hi, rfl⟩ | ⟨i, hi, rfl⟩) | ⟨i, hi, rfl⟩ <;> omega

/-- Claim C3: the byte-to-UTF8 map and the UTF8-to-byte map of the byte
encoder are exact inverses of each other, and each covers all 256 byte
values: looking up any byte below 256 in the forward map yields a string
whose reverse lookup returns the byte, and an entry is in one map exactly
when its mirror image is in the other. -/
theorem c3_byte_map_bijection :
    (∀ b < 256, ∃ s, unicode_byte_to_utf8 b = some s ∧ unicode_utf8_to_byte s = some b) ∧
      (∀ b s, unicode_byte_to_utf8 b = some s ↔ unicode_utf8_to_byte s = some b) := by
  have hlt : ∀ ch ∈ List.range 256, ch < 256 := fun ch hc => List.mem_range.mp hc
  have hnd : (List.range 256).Nodup := List.nodup_range 256
  have hlen : 0 + (List.range 256).length ≤ 512 := by simp
  have bw1 : ∀ b s,
      (unicode_byte_to_utf8_seed_bytes.map (fun ch => (ch, cpt_to_utf8_total ch))).lookup b =
        some s →
      (unicode_byte_to_utf8_seed_bytes.map (fun ch => (cpt_to_utf8_total ch, ch))).lookup s =
        some b := by
    intro b s h
    obtain ⟨hmem, rfl⟩ := lookup_map_pair_some _ _ _ _ h
    refine lookup_rev_pair _ _ _ hmem ?_
    intro a ha he
    exact cpt_to_utf8_total_inj a b (by have := seed_bytes_lt a ha; omega)
      (by have := seed_bytes_lt b hmem; omega) he
  have bw2 : ∀ s b,
      (unicode_byte_to_utf8_seed_bytes.map (fun ch => (cpt_to_utf8_total ch, ch))).lookup s =
        some b →
      (unicode_byte_to_utf8_seed_bytes.map (fun ch => (ch, cpt_to_utf8_total ch))).lookup b =
        some s := by
    intro s b h
    obtain ⟨hmem, hfb⟩ := lookup_rev_pair_some _ _ _ _ h
    rw [lookup_map_pair _ _ _ hmem, hfb]
  have bsync : ∀ ch ∈ List.range 256,
      ((unicode_byte_to_utf8_seed_bytes.map (fun ch => (ch, cpt_to_utf8_total ch))).lookup ch =
        none ↔
      (unicode_byte_to_utf8_seed_bytes.map (fun ch => (cpt_to_utf8_total ch, ch))).lookup
        (cpt_to_utf8_total ch) = none) := by
    intro ch hc
    have hch : ch < 256 := List.mem_range.mp hc
    rw [lookup_map_pair_none, lookup_rev_pair_none]
    constructor
    · intro h a ha he
      exact h (cpt_to_utf8_total_inj a ch (by have := seed_bytes_lt a ha; omega)
        (by omega) he ▸ ha)
    · intro h hmem
      exact h ch hmem rfl
  have bprov : ∀ s b,
      (unicode_byte_to_utf8_seed_bytes.map (fun ch => (cpt_to_utf8_total ch, ch))).lookup s =
        some b → ∃ cp, cp < 256 + 0 ∧ s = cpt_to_utf8_total cp := by
    intro s b h
    obtain ⟨hmem, hfb⟩ := lookup_rev_pair_some _ _ _ _ h
    exact ⟨b, by have := seed_bytes_lt b hmem; omega, hfb.symm⟩
  obtain ⟨w1, w2⟩ := byte_map_fill_lockstep (List.range 256) _ _ 0 hlt hnd hlen bw1 bw2 bsync bprov
  constructor
  · intro b hb
    have hcov := unicode_byte_to_utf8_fill_cover (List.range 256)
      (unicode_byte_to_utf8_seed_bytes.map (fun ch => (ch, cpt_to_utf8_total ch))) 0 b
      (List.mem_range.mpr hb)
    cases hs : (unicode_byte_to_utf8_fill
        (unicode_byte_to_utf8_seed_bytes.map (fun ch => (ch, cpt_to_utf8_total ch)))
        0 (List.range 256)).lookup b with
    | none => rw [hs] at hcov; simp at hcov
    | some s =>
      refine ⟨s, ?_, ?_⟩
      · exact hs
      · exact w1 b s hs
  · intro b s
    exact ⟨fun h => w1 b s h, fun h => w2 s b h⟩

theorem c3_witness :
    ∃ s, unicode_byte_to_utf8 65 = some s ∧ unicode_utf8_to_byte s = some 65 :=
  c3_byte_map_bijection.1 65 (by norm_num)

theorem run_while_ge (p : Nat → Bool) : ∀ fuel pos, pos ≤ run_while p pos fuel := by
  intro fuel
  induction fuel with
  | zero => intro pos; rw [run_while]
  | succ k ih =>
    intro pos
    rw [run_while]
    split
    · exact Nat.le_trans (by omega) (ih (pos + 1))
    · exact Nat.le_refl _

theorem run_while_le (p : Nat → Bool) : ∀ fuel pos, run_while p pos fuel ≤ pos + fuel := by
  intro fuel
  induction fuel with
  | zero => intro pos; rw [run_while]; omega
  | succ k ih =>
    intro pos
    rw [run_while]
    split
    · exact Nat.le_trans (ih (pos + 1)) (by omega)
    · omega

theorem run_while_le_stop (p : Nat → Bool) : ∀ fuel pos m, pos ≤ m → p m = false →
    run_while p pos fuel ≤ m := by
  intro fuel
  induction fuel with
  | zero => intro pos m h _; rw [run_while]; exact h
  | succ k ih =>
    intro pos m h hm
    rw [run_while]
    split
    case isTrue hp =>
      refine ih (pos + 1) m ?_ hm
      rcases Nat.eq_or_lt_of_le h with h1 | h1
      · subst h1; rw [hp] at hm; exact absurd hm (by simp)
      · omega
    case isFalse => exact h

theorem run_while_gt (p : Nat → Bool) : ∀ fuel pos, p pos = true → 0 < fuel →
    pos + 1 ≤ run_while p pos fuel := by
  intro fuel pos hp hf
  cases fuel with
  | zero => omega
  | succ k =>
    rw [run_while, if_pos hp]
    exact run_while_ge p k (pos + 1)

theorem ws_count_ge (isws : Nat → Bool) : ∀ fuel pos n, n ≤ ws_count isws pos n fuel := by
  intro fuel
  induction fuel with
  | zero => intro pos n; rw [ws_count]
  | succ k ih =>
    intro pos n
    rw [ws_count]
    split
    · exact Nat.le_trans (by omega) (ih pos (n + 1))
    · exact Nat.le_refl _

theorem ws_count_le (isws : Nat → Bool) : ∀ fuel pos n, ws_count isws pos n fuel ≤ n + fuel := by
  intro fuel
  induction fuel with
  | zero => intro pos n; rw [ws_count]; omega
  | succ k ih =>
    intro pos n
    rw [ws_count]
    split
    · exact Nat.le_trans (ih pos (n + 1)) (by omega)
    · omega

theorem ws_count_le_stop (isws : Nat → Bool) : ∀ fuel pos n m, n ≤ m →
    isws (pos + m) = false → ws_count isws pos n fuel ≤ m := by
  intro fuel
  induction fuel with
  | zero => intro pos n m h _; rw [ws_count]; exact h
  | succ k ih =>
    intro pos n m h hm
    rw [ws_count]
    split
    case isTrue hp =>
      refine ih pos (n + 1) m ?_ hm
      rcases Nat.eq_or_lt_of_le h with h1 | h1
      · subst h1; rw [hp] at hm; exact absurd hm (by simp)
      · omega
    case isFalse => exact h

theorem ws_scan_count_ge (isws : Nat → Bool) (getc : Nat → Nat) :
    ∀ fuel pos n last, n ≤ (ws_scan isws getc pos n last fuel).1 := by
  intro fuel
  induction fuel with
  | zero => intro pos n last; rw [ws_scan]
  | succ k ih =>
    intro pos n last
    rw [ws_scan]
    split
    · exact Nat.le_trans (by omega) (ih pos (n + 1) _)
    · exact Nat.le_refl _

theorem ws_scan_count_le (isws : Nat → Bool) (getc : Nat → Nat) :
    ∀ fuel pos n last, (ws_scan isws getc pos n last fuel).1 ≤ n + fuel := by
  intro fuel
  induction fuel with
  | zero => intro pos n last; rw [ws_scan]; omega
  | succ k ih =>
    intro pos n last
    rw [ws_scan]
    split
    · exact Nat.le_trans (ih pos (n + 1) _) (by omega)
    · omega

theorem ws_scan_count_le_stop (isws : Nat → Bool) (getc : Nat → Nat) :
    ∀ fuel pos n last m, n ≤ m → isws (pos + m) = false →
      (ws_scan isws getc pos n last fuel).1 ≤ m := by
  intro fuel
  induction fuel with
  | zero => intro pos n last m h _; rw [ws_scan]; exact h
  | succ k ih =>
    intro pos n last m h hm
    rw [ws_scan]
    split
    case isTrue hp =>
      refine ih pos (n + 1) _ m ?_ hm
      rcases Nat.eq_or_lt_of_le h with h1 | h1
      · subst h1; rw [hp] at hm; exact absurd hm (by simp)
      · omega
    case isFalse => exact h

theorem ws_scan_last (isws : Nat → Bool) (getc : Nat → Nat) :
    ∀ fuel pos n last, (last = 0 ∨ (pos < last ∧ last ≤ pos + n)) →
      ((ws_scan isws getc pos n last fuel).2 = 0 ∨
        (pos < (ws_scan isws getc pos n last fuel).2 ∧
         (ws_scan isws getc pos n last fuel).2 ≤ pos + (ws_scan isws getc pos n last fuel).1)) := by
  intro fuel
  induction fuel with
  | zero =>
    intro pos n last h
    rw [ws_scan]
    exact h
  | succ k ih =>
    intro pos n last h
    rw [ws_scan]
    split
    case isTrue hp =>
      refine ih pos (n + 1) _ ?_
      split
      · right
        omega
      · rcases h with h | h
        · exact Or.inl h
        · right
          omega
    case isFalse => exact h

theorem digit_run_spec (f : Nat → Bool) : ∀ fuel acc pos ini prev acc2 pos2 prev2,
    prev ≤ pos →
    digit_run f acc pos ini prev fuel = (acc2, pos2, prev2) →
    pos ≤ pos2 ∧ pos2 ≤ pos + fuel ∧ prev ≤ prev2 ∧ prev2 ≤ pos2 ∧
      ∃ extra, acc2 = acc ++ extra ∧ extra.sum = prev2 - prev ∧ ∀ x ∈ extra, 0 < x := by
  intro fuel
  induction fuel with
  | zero =>
    intro acc pos ini prev acc2 pos2 prev2 hpp h
    rw [digit_run] at h
    injection h with h1 h'
    injection h' with h2 h3
    subst h1; subst h2; subst h3
    exact ⟨Nat.le_refl _, by omega, Nat.le_refl _, hpp, [], by simp, by simp, by simp⟩
  | succ k ih =>
    intro acc pos ini prev acc2 pos2 prev2 hpp h
    rw [digit_run] at h
    split at h
    case isTrue hf =>
      split at h
      case isTrue h3 =>
        rw [show (add_token acc prev (pos + 1)).1 = acc ++ [pos + 1 - prev] from by
          rw [add_token, if_pos (by omega)]] at h
        obtain ⟨a1, a2, a3, a4, extra, e1, e2, e3⟩ := ih _ _ _ _ _ _ _ (Nat.le_refl _) h
        refine ⟨by omega, by omega, by omega, a4, (pos + 1 - prev) :: extra, ?_, ?_, ?_⟩
        · simp [e1]
        · simp only [List.sum_cons, e2]
          omega
        · intro x hx
          rcases List.mem_cons.mp hx with h1 | h1
          · omega
          · exact e3 x h1
      case isFalse h3 =>
        obtain ⟨a1, a2, a3, a4, extra, e1, e2, e3⟩ := ih _ _ _ _ _ _ _ (by omega) h
        exact ⟨by omega, by omega, a3, a4, extra, e1, e2, e3⟩
    case isFalse =>
      injection h with h1 h'
      injection h' with h2 h3
      subst h1; subst h2; subst h3
      exact ⟨Nat.le_refl _, by omega, Nat.le_refl _, hpp, [], by simp, by simp, by simp⟩

theorem digit_run_le_stop (f : Nat → Bool) : ∀ fuel acc pos ini prev m, pos ≤ m →
    f m = false → (digit_run f acc pos ini prev fuel).2.1 ≤ m := by
  intro fuel
  induction fuel with
  | zero => intro acc pos ini prev m h _; rw [digit_run]; exact h
  | succ k ih =>
    intro acc pos ini prev m h hm
    rw [digit_run]
    split
    case isTrue hf =>
      have hne : pos ≠ m := fun he => by rw [he, hm] at hf; exact absurd hf (by simp)
      split
      · exact ih _ _ _ _ m (by omega) hm
      · exact ih _ _ _ _ m (by omega) hm
    case isFalse => exact h

theorem seg_get_flags_oob (flagsOf : Nat → codepoint_flags) (cpts : List Nat)
    (oi oe q : Nat) (h : oe ≤ q) :
    seg_get_flags flagsOf cpts oi oe q = codepoint_flags.UNDEF := by
  rw [seg_get_flags, if_neg (by omega)]

theorem seg_pos1_bounds (cpts : List Nat) (oi oe pos : Nat) :
    pos ≤ seg_pos1 cpts oi oe pos ∧ seg_pos1 cpts oi oe pos ≤ pos + 1 := by
  rw [seg_pos1]
  split <;> omega

theorem gpt2_iter_spec (flagsOf : Nat → codepoint_flags) (cpts : List Nat) (oi oe pos : Nat)
    (acc : List Nat) (hlt : pos < oe) :
    ∃ e d, gpt2_iter flagsOf cpts oi oe pos pos acc = (e, e, acc ++ d) ∧
      pos < e ∧ e ≤ oe ∧ d.sum = e - pos ∧ ∀ x ∈ d, 0 < x := by
  have emit : ∀ e, pos < e → e ≤ oe →
      ∃ e2 d, (e, e, (add_token acc pos e).1) = (e2, e2, acc ++ d) ∧
        pos < e2 ∧ e2 ≤ oe ∧ d.sum = e2 - pos ∧ ∀ x ∈ d, 0 < x := by
    intro e he1 he2
    refine ⟨e, [e - pos], ?_, he1, he2, by simp, ?_⟩
    · rw [add_token, if_pos (by omega)]
    · intro x hx
      simp at hx
      omega
  have hwsf : ∀ m, oe ≤ pos + m →
      (fun q => (seg_get_flags flagsOf cpts oi oe q).is_whitespace) (pos + m) = false := by
    intro m hm
    simp only
    rw [seg_get_flags_oob flagsOf cpts oi oe _ hm]
    rfl
  have hrun : ∀ p : Nat → Bool, (seg_pos1 cpts oi oe pos = pos → p pos = true) →
      pos < run_while p (seg_pos1 cpts oi oe pos) (oe - seg_pos1 cpts oi oe pos) ∧
      run_while p (seg_pos1 cpts oi oe pos) (oe - seg_pos1 cpts oi oe pos) ≤ oe := by
    intro p hp
    have hb := seg_pos1_bounds cpts oi oe pos
    constructor
    · by_cases hsp : seg_get_cpt cpts oi oe pos = 32
      · have h32 : seg_pos1 cpts oi oe pos = pos + 1 := by rw [seg_pos1, if_pos hsp]
        rw [h32]
        exact Nat.lt_of_lt_of_le (by omega) (run_while_ge _ _ _)
      · have h0 : seg_pos1 cpts oi oe pos = pos := by rw [seg_pos1, if_neg hsp]
        rw [h0]
        exact run_while_gt _ _ _ (hp h0) (by omega)
    · calc run_while p (seg_pos1 cpts oi oe pos) (oe - seg_pos1 cpts oi oe pos) ≤
          seg_pos1 cpts oi oe pos + (oe - seg_pos1 cpts oi oe pos) := run_while_le _ _ _
        _ ≤ oe := by omega
  rw [gpt2_iter]
  split_ifs with hc1 hc2 hc3 hc4 hc5
  · rw [show pos + (add_token acc pos (pos + 2)).2 = pos + 2 from by
      rw [show (add_token acc pos (pos + 2)).2 = pos + 2 - pos from rfl]; omega]
    exact emit (pos + 2) (by omega) (by omega)
  · rw [show pos + (add_token acc pos (pos + 3)).2 = pos + 3 from by
      rw [show (add_token acc pos (pos + 3)).2 = pos + 3 - pos from rfl]; omega]
    exact emit (pos + 3) (by omega) (by omega)
  · rw [gpt2_run_step]
    obtain ⟨ha, hb⟩ := hrun (fun q => (seg_get_flags flagsOf cpts oi oe q).is_letter)
      (fun h0 => by rw [seg_flags2, if_neg (by
        intro hsp; rw [seg_pos1, if_pos hsp] at h0; omega)] at hc3; exact hc3)
    exact emit _ ha hb
  · rw [gpt2_run_step]
    obtain ⟨ha, hb⟩ := hrun (fun q => (seg_get_flags flagsOf cpts oi oe q).is_number)
      (fun h0 => by rw [seg_flags2, if_neg (by
        intro hsp; rw [seg_pos1, if_pos hsp] at h0; omega)] at hc4; exact hc4)
    exact emit _ ha hb
  · rw [gpt2_run_step]
    obtain ⟨ha, hb⟩ := hrun (fun q => (seg_get_flags flagsOf cpts oi oe q).other_class)
      (fun h0 => by rw [seg_flags2, if_neg (by
        intro hsp; rw [seg_pos1, if_pos hsp] at h0; omega)] at hc5; exact hc5)
    exact emit _ ha hb
  · rw [gpt2_ws_step]
    have hn := ws_count_le_stop
      (fun q => (seg_get_flags flagsOf cpts oi oe q).is_whitespace)
      (oe - pos) pos 0 (oe - pos) (by omega) (hwsf (oe - pos) (by omega))
    split_ifs with hw1 hw2
    · exact emit _ (by omega) (by omega)
    · exact emit _ (by omega) (by omega)
    · exact emit _ (by omega) (by omega)

theorem gpt2_go_master (flagsOf : Nat → codepoint_flags) (cpts : List Nat) (oi oe : Nat) :
    ∀ fuel pos acc, pos ≤ oe → oe - pos ≤ fuel →
      ∃ extra, gpt2_go flagsOf cpts oi oe fuel pos pos acc = acc ++ extra ∧
        extra.sum = oe - pos ∧ ∀ x ∈ extra, 0 < x := by
  intro fuel
  induction fuel with
  | zero =>
    intro pos acc h2 h3
    rw [gpt2_go]
    exact ⟨[], by simp, by simp only [List.sum_nil]; omega, by simp⟩
  | succ k ih =>
    intro pos acc h2 h3
    rw [gpt2_go]
    by_cases hlt : pos < oe
    case neg =>
      rw [if_neg hlt]
      exact ⟨[], by simp, by simp only [List.sum_nil]; omega, by simp⟩
    case pos =>
      rw [if_pos hlt]
      obtain ⟨e, d, hit, he1, he2, hsum, hposd⟩ := gpt2_iter_spec flagsOf cpts oi oe pos acc hlt
      rw [hit]
      obtain ⟨extra, hx1, hx2, hx3⟩ := ih e (acc ++ d) he2 (by omega)
      refine ⟨d ++ extra, ?_, ?_, ?_⟩
      · rw [hx1, List.append_assoc]
      · simp only [List.sum_append, hsum, hx2]
        omega
      · intro x hx
        rcases List.mem_append.mp hx with h | h
        · exact hposd x h
        · exact hx3 x h

theorem digit_run_pos_ge (f : Nat → Bool) : ∀ fuel acc pos ini prev,
    pos ≤ (digit_run f acc pos ini prev fuel).2.1 := by
  intro fuel
  induction fuel with
  | zero => intro acc pos ini prev; rw [digit_run]
  | succ k ih =>
    intro acc pos ini prev
    rw [digit_run]
    split
    · split
      · exact Nat.le_trans (by omega) (ih _ _ _ _)
      · exact Nat.le_trans (by omega) (ih _ _ _ _)
    · exact Nat.le_refl _

theorem digit_run_gt (f : Nat → Bool) (fuel : Nat) (acc : List Nat) (pos ini prev : Nat) (hf : f pos = true)
    (hfuel : 0 < fuel) : pos + 1 ≤ (digit_run f acc pos ini prev fuel).2.1 := by
  cases fuel with
  | zero => omega
  | succ k =>
    rw [digit_run, if_pos hf]
    split
    · exact digit_run_pos_ge f k _ _ _ _
    · exact digit_run_pos_ge f k _ _ _ _

theorem llama3_iter_spec (flagsOf : Nat → codepoint_flags) (tolowerFn : Nat → Nat)
    (cpts : List Nat) (oi oe pos : Nat) (acc : List Nat) (hlt : pos < oe) :
    ∃ e d, llama3_iter flagsOf tolowerFn cpts oi oe pos pos acc = (e, e, acc ++ d) ∧
      pos < e ∧ e ≤ oe ∧ d.sum = e - pos ∧ ∀ x ∈ d, 0 < x := by
  have emit : ∀ e, pos < e → e ≤ oe →
      ∃ e2 d, (e, e, (add_token acc pos e).1) = (e2, e2, acc ++ d) ∧
        pos < e2 ∧ e2 ≤ oe ∧ d.sum = e2 - pos ∧ ∀ x ∈ d, 0 < x := by
    intro e he1 he2
    refine ⟨e, [e - pos], ?_, he1, he2, by simp, ?_⟩
    · rw [add_token, if_pos (by omega)]
    · intro x hx
      simp at hx
      omega
  have hwsf : ∀ m, oe ≤ pos + m →
      (fun q => (seg_get_flags flagsOf cpts oi oe q).is_whitespace) (pos + m) = false := by
    intro m hm
    simp only
    rw [seg_get_flags_oob flagsOf cpts oi oe _ hm]
    rfl
  rw [llama3_iter]
  split_ifs with hc1 hc2 hc3 hc4 hc5
  · rw [show pos + (add_token acc pos (pos + 2)).2 = pos + 2 from by
      rw [show (add_token acc pos (pos + 2)).2 = pos + 2 - pos from rfl]; omega]
    exact emit (pos + 2) (by omega) (by omega)
  · rw [show pos + (add_token acc pos (pos + 3)).2 = pos + 3 from by
      rw [show (add_token acc pos (pos + 3)).2 = pos + 3 - pos from rfl]; omega]
    exact emit (pos + 3) (by omega) (by omega)
  · -- optional non-class prefix plus letter run
    refine emit _ ?_ ?_
    · exact Nat.lt_of_lt_of_le (by omega) (run_while_ge _ _ _)
    · calc run_while _ (pos + 1) (oe - (pos + 1)) ≤ (pos + 1) + (oe - (pos + 1)) :=
          run_while_le _ _ _
        _ ≤ oe := by omega
  · -- digit run emitting every three digits
    rcases hd : digit_run
        (fun q => (seg_get_flags flagsOf cpts oi oe q).is_number)
        acc pos pos pos (oe - pos) with ⟨acc2, pos2, prev2⟩
    obtain ⟨a1, a2, a3, a4, extra, e1, e2, e3⟩ :=
      digit_run_spec _ _ _ _ _ _ _ _ _ (Nat.le_refl pos) hd
    have hgt : pos + 1 ≤ pos2 := by
      have := digit_run_gt (fun q => (seg_get_flags flagsOf cpts oi oe q).is_number)
        (oe - pos) acc pos pos pos hc4 (by omega)
      rw [hd] at this
      exact this
    by_cases hpe : prev2 < pos2
    · refine ⟨pos2, extra ++ [pos2 - prev2], ?_, by omega, by omega, ?_, ?_⟩
      · rw [show (add_token acc2 prev2 pos2).1 = acc2 ++ [pos2 - prev2] from by
          rw [add_token, if_pos (by omega)], e1, List.append_assoc]
      · simp only [List.sum_append, e2, List.sum_cons, List.sum_nil]
        omega
      · intro x hx
        rcases List.mem_append.mp hx with h | h
        · exact e3 x h
        · simp at h
          omega
    · have hpp : prev2 = pos2 := by omega
      refine ⟨pos2, extra, ?_, by omega, by omega, ?_, e3⟩
      · rw [show (add_token acc2 prev2 pos2).1 = acc2 from by
          rw [add_token, if_neg (by omega)], e1]
      · omega
  · -- other-class run with CR/LF tail
    rw [llama3_other_step]
    have hb := seg_pos1_bounds cpts oi oe pos
    have he1g : pos < run_while
        (fun q => (seg_get_flags flagsOf cpts oi oe q).other_class)
        (seg_pos1 cpts oi oe pos) (oe - seg_pos1 cpts oi oe pos) := by
      by_cases hsp : seg_get_cpt cpts oi oe pos = 32
      · have h32 : seg_pos1 cpts oi oe pos = pos + 1 := by rw [seg_pos1, if_pos hsp]
        rw [h32]
        exact Nat.lt_of_lt_of_le (by omega) (run_while_ge _ _ _)
      · have h0 : seg_pos1 cpts oi oe pos = pos := by rw [seg_pos1, if_neg hsp]
        have hp : (seg_get_flags flagsOf cpts oi oe pos).other_class = true := by
          rw [seg_flags2, if_neg hsp] at hc5
          exact hc5
        rw [h0]
        exact run_while_gt _ _ _ hp (by omega)
    have he1le : run_while
        (fun q => (seg_get_flags flagsOf cpts oi oe q).other_class)
        (seg_pos1 cpts oi oe pos) (oe - seg_pos1 cpts oi oe pos) ≤ oe := by
      calc run_while _ (seg_pos1 cpts oi oe pos) (oe - seg_pos1 cpts oi oe pos) ≤
          seg_pos1 cpts oi oe pos + (oe - seg_pos1 cpts oi oe pos) := run_while_le _ _ _
        _ ≤ oe := by omega
    refine emit _ ?_ ?_
    · exact Nat.lt_of_lt_of_le he1g (run_while_ge _ _ _)
    · calc run_while _ _ (oe - run_while
            (fun q => (seg_get_flags flagsOf cpts oi oe q).other_class)
            (seg_pos1 cpts oi oe pos) (oe - seg_pos1 cpts oi oe pos)) ≤ _ :=
          run_while_le _ _ _
        _ ≤ oe := by omega
  · -- whitespace rules
    rw [llama3_ws_step]
    have hn := ws_scan_count_le_stop
      (fun q => (seg_get_flags flagsOf cpts oi oe q).is_whitespace)
      (seg_get_cpt cpts oi oe)
      (oe - pos) pos 0 0 (oe - pos) (by omega) (hwsf (oe - pos) (by omega))
    have hlast := ws_scan_last
      (fun q => (seg_get_flags flagsOf cpts oi oe q).is_whitespace)
      (seg_get_cpt cpts oi oe) (oe - pos) pos 0 0 (Or.inl rfl)
    split_ifs with hw1 hw2 hw3
    · rcases hlast with h | ⟨h1, h2⟩
      · omega
      · exact emit _ h1 (by omega)
    · exact emit _ (by omega) (by omega)
    · exact emit _ (by omega) (by omega)
    · exact emit _ (by omega) (by omega)

theorem llama3_go_master (flagsOf : Nat → codepoint_flags) (tolowerFn : Nat → Nat)
    (cpts : List Nat) (oi oe : Nat) :
    ∀ fuel pos acc, pos ≤ oe → oe - pos ≤ fuel →
      ∃ extra, llama3_go flagsOf tolowerFn cpts oi oe fuel pos pos acc = acc ++ extra ∧
        extra.sum = oe - pos ∧ ∀ x ∈ extra, 0 < x := by
  intro fuel
  induction fuel with
  | zero =>
    intro pos acc h2 h3
    rw [llama3_go]
    exact ⟨[], by simp, by simp only [List.sum_nil]; omega, by simp⟩
  | succ k ih =>
    intro pos acc h2 h3
    rw [llama3_go]
    by_cases hlt : pos < oe
    case neg =>
      rw [if_neg hlt]
      exact ⟨[], by simp, by simp only [List.sum_nil]; omega, by simp⟩
    case pos =>
      rw [if_pos hlt]
      obtain ⟨e, d, hit, he1, he2, hsum, hposd⟩ :=
        llama3_iter_spec flagsOf tolowerFn cpts oi oe pos acc hlt
      rw [hit]
      obtain ⟨extra, hx1, hx2, hx3⟩ := ih e (acc ++ d) he2 (by omega)
      refine ⟨d ++ extra, ?_, ?_, ?_⟩
      · rw [hx1, List.append_assoc]
      · simp only [List.sum_append, hsum, hx2]
        omega
      · intro x hx
        rcases List.mem_append.mp hx with h | h
        · exact hposd x h
        · exact hx3 x h

theorem split_segments_master (seg : Nat → Nat → List Nat → List Nat)
    (hseg : ∀ start stop acc, start ≤ stop →
      ∃ extra, seg start stop acc = acc ++ extra ∧ extra.sum = stop - start ∧
        ∀ x ∈ extra, 0 < x) :
    ∀ offsets start acc,
      ∃ extra, split_segments seg start offsets acc = acc ++ extra ∧
        extra.sum = offsets.sum ∧ ∀ x ∈ extra, 0 < x := by
  intro offsets
  induction offsets with
  | nil =>
    intro start acc
    exact ⟨[], by rw [split_segments]; simp, by simp, by simp⟩
  | cons offset rest ih =>
    intro start acc
    rw [split_segments]
    obtain ⟨d, hd1, hd2, hd3⟩ := hseg start (start + offset) acc (by omega)
    rw [hd1]
    obtain ⟨extra, hx1, hx2, hx3⟩ := ih (start + offset) (acc ++ d)
    refine ⟨d ++ extra, by rw [hx1, List.append_assoc], ?_, ?_⟩
    · simp only [List.sum_append, hd2, hx2, List.sum_cons]
      omega
    · intro x hx
      rcases List.mem_append.mp hx with h | h
      · exact hd3 x h
      · exact hx3 x h

theorem stl_seg_sum : ∀ (ms : List (Nat × Nat)) (offset s : Nat),
    stl_matches_valid s offset ms → s ≤ offset → (stl_seg ms offset s).sum = offset - s := by
  intro ms
  induction ms with
  | nil =>
    intro offset s _ hso
    rw [stl_seg]
    split <;> (simp; try omega)
  | cons pr rest ih =>
    intro offset s hv hso
    obtain ⟨p, l⟩ := pr
    obtain ⟨h1, h2, h3⟩ := hv
    rw [stl_seg]
    have := ih offset (p + l) h3 (by omega)
    simp only [List.sum_append, this, List.sum_cons, List.sum_nil]
    split <;> (simp; try omega)

theorem unicode_regex_split_stl_sum (matcher : Nat → Nat → List (Nat × Nat))
    (hm : ∀ start offset, stl_matches_valid 0 offset (matcher start offset)) :
    ∀ (offsets : List Nat) (start : Nat),
      (unicode_regex_split_stl matcher start offsets).sum = offsets.sum := by
  intro offsets
  induction offsets with
  | nil => intro start; rw [unicode_regex_split_stl]
  | cons offset rest ih =>
    intro start
    rw [unicode_regex_split_stl]
    simp only [List.sum_append, List.sum_cons]
    rw [stl_seg_sum (matcher start offset) offset 0 (hm start offset) (by omega), ih]
    omega

/-- Claim C1: offset conservation. If the input offsets sum to the
codepoint count of the text, then the GPT-2 custom splitter, the LLaMA-3
custom splitter and the regex fallback each return an offset list that
again sums to the codepoint count, for every flag table, lowercase map and
(for the fallback) every regex engine whose matches respect the
`std::regex_iterator` guarantees. -/
theorem c1_offset_conservation (flagsOf : Nat → codepoint_flags) (tolowerFn : Nat → Nat)
    (text : List Nat) (offsets : List Nat) (cpts : List Nat)
    (hdec : unicode_cpts_from_utf8 text = Except.ok cpts)
    (hsum : offsets.sum = cpts.length) :
    (∃ out, unicode_regex_split_custom_gpt2 flagsOf text offsets = Except.ok out ∧
      out.sum = cpts.length) ∧
    (∃ out, unicode_regex_split_custom_llama3 flagsOf tolowerFn text offsets = Except.ok out ∧
      out.sum = cpts.length) ∧
    (∀ matcher : Nat → Nat → List (Nat × Nat),
      (∀ start offset, stl_matches_valid 0 offset (matcher start offset)) →
      (unicode_regex_split_stl matcher 0 offsets).sum = cpts.length) := by
  refine ⟨?_, ?_, ?_⟩
  · obtain ⟨extra, h1, h2, _⟩ := split_segments_master
      (fun start stop acc => gpt2_go flagsOf cpts start stop (stop - start) start start acc)
      (fun start stop acc hss => gpt2_go_master flagsOf cpts start stop (stop - start)
        start acc hss (by omega))
      offsets 0 []
    refine ⟨List.nil ++ extra, ?_, ?_⟩
    · rw [unicode_regex_split_custom_gpt2, hdec]
      dsimp only
      rw [h1]
    · simp at h2 ⊢
      omega
  · obtain ⟨extra, h1, h2, _⟩ := split_segments_master
      (fun start stop acc =>
        llama3_go flagsOf tolowerFn cpts start stop (stop - start) start start acc)
      (fun start stop acc hss => llama3_go_master flagsOf tolowerFn cpts start stop
        (stop - start) start acc hss (by omega))
      offsets 0 []
    refine ⟨List.nil ++ extra, ?_, ?_⟩
    · rw [unicode_regex_split_custom_llama3, hdec]
      dsimp only
      rw [h1]
    · simp at h2 ⊢
      omega
  · intro matcher hm
    rw [unicode_regex_split_stl_sum matcher hm offsets 0, hsum]

/-- Witness for C1 at a concrete input: the text `ab` (two codepoints)
with input offsets `[2]` and the empty-match regex engine. -/
theorem c1_offset_conservation_witness :
    (∃ out, unicode_regex_split_custom_gpt2 ascii_flags [97, 98] [2] = Except.ok out ∧
      out.sum = 2) ∧
    (∃ out, unicode_regex_split_custom_llama3 ascii_flags ascii_tolower [97, 98] [2] =
      Except.ok out ∧ out.sum = 2) ∧
    (∀ matcher : Nat → Nat → List (Nat × Nat),
      (∀ start offset, stl_matches_valid 0 offset (matcher start offset)) →
      (unicode_regex_split_stl matcher 0 [2]).sum = 2) := by
  have h := c1_offset_conservation ascii_flags ascii_tolower [97, 98] [2] [97, 98]
    (by rfl) (by rfl)
  simpa using h

/-- Claim C10: every element of the offset list returned by the GPT-2 and
LLaMA-3 custom splitters is strictly positive, for every input text, flag
table, lowercase map and input offset list. -/
theorem c10_no_empty_tokens (flagsOf : Nat → codepoint_flags) (tolowerFn : Nat → Nat)
    (text : List Nat) (offsets : List Nat) :
    (∀ out, unicode_regex_split_custom_gpt2 flagsOf text offsets = Except.ok out →
      ∀ x ∈ out, 0 < x) ∧
    (∀ out, unicode_regex_split_custom_llama3 flagsOf tolowerFn text offsets = Except.ok out →
      ∀ x ∈ out, 0 < x) := by
  constructor
  · intro out hout x hx
    rw [unicode_regex_split_custom_gpt2] at hout
    cases hdec : unicode_cpts_from_utf8 text with
    | error e => rw [hdec] at hout; exact absurd hout (by simp)
    | ok cpts =>
      rw [hdec] at hout
      obtain ⟨extra, h1, _, h3⟩ := split_segments_master
        (fun start stop acc => gpt2_go flagsOf cpts start stop (stop - start) start start acc)
        (fun start stop acc hss => gpt2_go_master flagsOf cpts start stop (stop - start)
          start acc hss (by omega))
        offsets 0 []
      simp only [Except.ok.injEq] at hout
      rw [← hout, h1] at hx
      exact h3 x (by simpa using hx)
  · intro out hout x hx
    rw [unicode_regex_split_custom_llama3] at hout
    cases hdec : unicode_cpts_from_utf8 text with
    | error e => rw [hdec] at hout; exact absurd hout (by simp)
    | ok cpts =>
      rw [hdec] at hout
      obtain ⟨extra, h1, _, h3⟩ := split_segments_master
        (fun start stop acc =>
          llama3_go flagsOf tolowerFn cpts start stop (stop - start) start start acc)
        (fun start stop acc hss => llama3_go_master flagsOf tolowerFn cpts start stop
          (stop - start) start acc hss (by omega))
        offsets 0 []
      simp only [Except.ok.injEq] at hout
      rw [← hout, h1] at hx
      exact h3 x (by simpa using hx)

/-- Witness for C10 at a concrete input. -/
theorem c10_no_empty_tokens_witness : (0 : Nat) < 2 :=
  (c10_no_empty_tokens ascii_flags ascii_tolower [97, 98] [2]).1 [2] (by rfl) 2 (by simp)

/-- Claim C6: the LLaMA-3 custom splitter on the text `1234567` (seven
digit codepoints) with initial offsets `[7]` returns the offset list
`[3, 3, 1]`, the digit-run chunking into `123`, `456`, `7`. -/
theorem c6_llama3_digit_chunking :
    unicode_regex_split_custom_llama3 ascii_flags ascii_tolower
      [49, 50, 51, 52, 53, 54, 55] [7] = Except.ok [3, 3, 1] := by rfl

theorem unicode_nfd_map_idem (t : List range_nfd)
    (hfix : ∀ r ∈ t, unicode_nfd_map t r.nfd = r.nfd) (c : Nat) :
    unicode_nfd_map t (unicode_nfd_map t c) = unicode_nfd_map t c := by
  cases hm : (t.takeWhile (fun r => r.first ≤ c)).getLast? with
  | none =>
    have h0 : unicode_nfd_map t c = c := by rw [unicode_nfd_map, hm]
    rw [h0]
    exact h0
  | some it =>
    have hmem : it ∈ t := by
      have h1 : it ∈ List.takeWhile (fun r => decide (r.first ≤ c)) t := by
        obtain ⟨ys, hys⟩ := List.getLast?_eq_some_iff.mp hm
        rw [hys]
        simp
      exact List.takeWhile_subset _ h1
    have heq : unicode_nfd_map t c = if it.first ≤ c ∧ c ≤ it.last then it.nfd else c := by
      rw [unicode_nfd_map, hm]
    by_cases hin : it.first ≤ c ∧ c ≤ it.last
    · rw [heq, if_pos hin, hfix it hmem]
    · rw [heq, if_neg hin]
      rw [heq, if_neg hin]

/-- Claim C9: `unicode_cpts_normalize_nfd` is idempotent on every
codepoint sequence, for every NFD range table whose decomposition targets
are fixed points of the per-codepoint lookup (the property the real table
of unicode-data.cpp has: its targets are base characters that no range
decomposes further). -/
theorem c9_normalize_nfd_idem (t : List range_nfd)
    (hfix : ∀ r ∈ t, unicode_nfd_map t r.nfd = r.nfd) (cpts : List Nat) :
    unicode_cpts_normalize_nfd t (unicode_cpts_normalize_nfd t cpts) =
      unicode_cpts_normalize_nfd t cpts := by
  show (cpts.map (unicode_nfd_map t)).map (unicode_nfd_map t) = cpts.map (unicode_nfd_map t)
  rw [List.map_map]
  refine List.map_congr_left ?_
  intro c _
  exact unicode_nfd_map_idem t hfix c

/-- Witness for C9 at a concrete table (the zero sentinel plus the range
for À..Å → A) and a concrete codepoint sequence. -/
theorem c9_normalize_nfd_idem_witness :
    unicode_cpts_normalize_nfd [⟨0, 0, 0⟩, ⟨0xC0, 0xC5, 0x41⟩]
      (unicode_cpts_normalize_nfd [⟨0, 0, 0⟩, ⟨0xC0, 0xC5, 0x41⟩] [0xC0, 0x41, 0x200]) =
      unicode_cpts_normalize_nfd [⟨0, 0, 0⟩, ⟨0xC0, 0xC5, 0x41⟩] [0xC0, 0x41, 0x200] :=
  c9_normalize_nfd_idem [⟨0, 0, 0⟩, ⟨0xC0, 0xC5, 0x41⟩] (by decide) [0xC0, 0x41, 0x200]

/-- C8: a pattern that is not one of the three recognized literal pattern
strings, mentions one of the category classes, and decodes to codepoints
containing a value at or above 128, makes `unicode_regex_split` fail with
`MixedCategoryAndLiteral`, whatever the regex engine does
(unicode.cpp:741-748). -/
theorem c8_mixed_category_and_literal
    (flagsOf : Nat → codepoint_flags) (tolowerFn : Nat → Nat)
    (engine : Bool → List Nat → List Nat → List Nat → Except Unit (List Nat))
    (text pattern cpts cps : List Nat)
    (htext : unicode_cpts_from_utf8 text = Except.ok cpts)
    (hne1 : ¬ pattern = regex_expr_gpt2)
    (hne2 : ¬ pattern = regex_expr_llama3)
    (hne3 : ¬ pattern = regex_expr_llama3_alt)
    (hcat : k_ucat_enum.any (fun u => contains_sub u.1 pattern) = true)
    (hdec : unicode_cpts_from_utf8 pattern = Except.ok cps)
    (hna : cps.any (fun c => 128 ≤ c) = true) :
    unicode_regex_split flagsOf tolowerFn engine text [pattern] =
      Except.error UnicodeError.MixedCategoryAndLiteral := by
  rw [unicode_regex_split, htext]
  dsimp only
  rw [unicode_regex_split_loop, unicode_regex_split_custom,
    if_neg hne1, if_neg (not_or.mpr ⟨hne2, hne3⟩)]
  dsimp only
  rw [if_neg (by simp), if_pos hcat, hdec]
  dsimp only
  rw [if_pos hna]

/-- Witness for C8 at the pattern bytes of a category class followed by a
two-byte codepoint. -/
theorem c8_mixed_category_and_literal_witness :
    unicode_regex_split (fun _ => codepoint_flags.UNDEF) (fun c => c)
      (fun _ _ _ _ => Except.ok []) [97] [[92, 112, 123, 76, 125, 0xC3, 0xA9]] =
      Except.error UnicodeError.MixedCategoryAndLiteral :=
  c8_mixed_category_and_literal _ _ _ [97] [92, 112, 123, 76, 125, 0xC3, 0xA9]
    [97] [92, 112, 123, 76, 125, 0xE9]
    (by rfl) (by decide) (by decide) (by decide) (by decide) (by rfl) (by decide)

theorem ascii_flags_letter_inv (c : Nat) (h : (ascii_flags c).is_letter = true) :
    (65 ≤ c ∧ c ≤ 90) ∨ (97 ≤ c ∧ c ≤ 122) := by
  rw [ascii_flags] at h
  split_ifs at h <;> first | (left; omega) | (right; omega) | exact absurd h (by decide)

theorem ascii_letter_facts (c : Nat) (h : (65 ≤ c ∧ c ≤ 90) ∨ (97 ≤ c ∧ c ≤ 122)) :
    (ascii_flags c).other_class = false ∧ (ascii_flags c).is_whitespace = false ∧
      ¬ c = 32 ∧ ¬ c = 13 ∧ ¬ c = 10 ∧ ¬ c = 39 := by
  rw [ascii_flags]
  split_ifs <;>
    first
      | (exfalso; omega)
      | exact ⟨by decide, by decide, by omega, by omega, by omega, by omega⟩

theorem token_at_mark (acc extra : List Nat) (p L : Nat) (hsum : acc.sum = p) :
    token_at ((acc ++ [L]) ++ extra) p L = true := by
  rw [token_at, List.any_eq_true]
  refine ⟨acc.length, List.mem_range.mpr (by simp), ?_⟩
  rw [Bool.and_eq_true, beq_iff_eq, beq_iff_eq, List.append_assoc]
  refine ⟨?_, ?_⟩
  · rw [List.take_left, hsum]
  · rw [List.getD_append_right _ _ _ _ (Nat.le_refl _), Nat.sub_self]
    rfl

theorem c7_iter_le (cpts : List Nat) (p pos : Nat)
    (hp : p < cpts.length) (hapo : cpts.getD p 0 = 39)
    (hprev : p = 0 ∨ (ascii_flags (cpts.getD (p - 1) 0)).is_letter = true)
    (hlt : pos < p) (acc : List Nat) :
    (llama3_iter ascii_flags ascii_tolower cpts 0 cpts.length pos pos acc).1 ≤ p := by
  have hletter : (ascii_flags (cpts.getD (p - 1) 0)).is_letter = true := by
    rcases hprev with h | h
    · omega
    · exact h
  have hrange := ascii_flags_letter_inv _ hletter
  obtain ⟨hoc, hws, h32, h13, h10, h39⟩ := ascii_letter_facts _ hrange
  have hgcp : seg_get_cpt cpts 0 cpts.length p = 39 := by
    rw [seg_get_cpt, if_pos ⟨Nat.zero_le _, hp⟩]
    exact hapo
  have hgfp : seg_get_flags ascii_flags cpts 0 cpts.length p = ascii_flags 39 := by
    rw [seg_get_flags, if_pos ⟨Nat.zero_le _, hp⟩, hapo]
  have hgcp1 : seg_get_cpt cpts 0 cpts.length (p - 1) = cpts.getD (p - 1) 0 := by
    rw [seg_get_cpt, if_pos ⟨Nat.zero_le _, by omega⟩]
  have hgfp1 : seg_get_flags ascii_flags cpts 0 cpts.length (p - 1) =
      ascii_flags (cpts.getD (p - 1) 0) := by
    rw [seg_get_flags, if_pos ⟨Nat.zero_le _, by omega⟩]
  rw [llama3_iter]
  split_ifs with hc1 hc2 hc3 hc4 hc5
  · -- 2-codepoint contraction: the apostrophe cannot sit at p - 1 (a letter is there)
    rcases hc1 with ⟨hq, _, _⟩
    have hne : ¬ pos = p - 1 := by
      intro he
      rw [he, hgcp1] at hq
      exact h39 hq
    dsimp only
    rw [show (add_token acc pos (pos + 2)).2 = pos + 2 - pos from rfl]
    omega
  · -- 3-codepoint contraction: neither p - 1 (letter) nor p - 2 (39 is no suffix tail)
    rcases hc2 with ⟨hq, _, _, hpair⟩
    have hne1 : ¬ pos = p - 1 := by
      intro he
      rw [he, hgcp1] at hq
      exact h39 hq
    have hne2 : ¬ pos + 2 = p := by
      intro he
      rw [he, hgcp] at hpair
      rcases hpair with ⟨_, hx⟩ | ⟨_, hx⟩ | ⟨_, hx⟩ <;> exact absurd hx (by decide)
    dsimp only
    rw [show (add_token acc pos (pos + 3)).2 = pos + 3 - pos from rfl]
    omega
  · -- letter run: 39 is not a letter, the run stops at p
    dsimp only
    refine run_while_le_stop _ _ _ p (by omega) ?_
    show (seg_get_flags ascii_flags cpts 0 cpts.length p).is_letter = false
    rw [hgfp]
    decide
  · -- digit run: 39 is not a number
    dsimp only
    refine digit_run_le_stop _ _ _ _ _ _ p (by omega) ?_
    show (seg_get_flags ascii_flags cpts 0 cpts.length p).is_number = false
    rw [hgfp]
    decide
  · -- other-class run: the letter at p - 1 stops the class run and the CR/LF tail
    rw [llama3_other_step]
    dsimp only
    have hppos : ¬ pos = p - 1 := by
      intro he
      rw [seg_flags2, he, hgcp1, if_neg h32, hgfp1] at hc5
      rw [hoc] at hc5
      exact absurd hc5 (by decide)
    have hsp : seg_pos1 cpts 0 cpts.length pos ≤ p - 1 := by
      have := seg_pos1_bounds cpts 0 cpts.length pos
      omega
    have he1 : run_while
        (fun q => (seg_get_flags ascii_flags cpts 0 cpts.length q).other_class)
        (seg_pos1 cpts 0 cpts.length pos)
        (cpts.length - seg_pos1 cpts 0 cpts.length pos) ≤ p - 1 := by
      refine run_while_le_stop _ _ _ (p - 1) hsp ?_
      show (seg_get_flags ascii_flags cpts 0 cpts.length (p - 1)).other_class = false
      rw [hgfp1]
      exact hoc
    refine Nat.le_trans (run_while_le_stop _ _ _ (p - 1) he1 ?_) (by omega)
    show (seg_get_cpt cpts 0 cpts.length (p - 1) == 13 ||
        seg_get_cpt cpts 0 cpts.length (p - 1) == 10) = false
    rw [hgcp1]
    exact Bool.or_eq_false_iff.mpr ⟨beq_eq_false_iff_ne.mpr h13, beq_eq_false_iff_ne.mpr h10⟩
  · -- whitespace rules: 39 is not whitespace, the scan stops at p
    rw [llama3_ws_step]
    have hcount := ws_scan_count_le_stop
      (fun q => (seg_get_flags ascii_flags cpts 0 cpts.length q).is_whitespace)
      (seg_get_cpt cpts 0 cpts.length)
      (cpts.length - pos) pos 0 0 (p - pos) (by omega)
      (by
        show (seg_get_flags ascii_flags cpts 0 cpts.length (pos + (p - pos))).is_whitespace
          = false
        rw [show pos + (p - pos) = p from by omega, hgfp]
        decide)
    have hlast := ws_scan_last
      (fun q => (seg_get_flags ascii_flags cpts 0 cpts.length q).is_whitespace)
      (seg_get_cpt cpts 0 cpts.length) (cpts.length - pos) pos 0 0 (Or.inl rfl)
    split_ifs with hw1 hw2 hw3 <;> dsimp only
    · rcases hlast with h | ⟨h1, h2⟩
      · omega
      · omega
    · omega
    · omega
    · omega

theorem llama3_go_reach (cpts : List Nat) (p L : Nat)
    (hp : p < cpts.length) (hapo : cpts.getD p 0 = 39)
    (hprev : p = 0 ∨ (ascii_flags (cpts.getD (p - 1) 0)).is_letter = true)
    (hhit : ∀ fuel acc, cpts.length - p ≤ fuel + 1 → acc.sum = p →
      token_at (llama3_go ascii_flags ascii_tolower cpts 0 cpts.length (fuel + 1) p p acc)
        p L = true) :
    ∀ fuel pos acc, cpts.length - pos ≤ fuel → pos ≤ p → acc.sum = pos →
      token_at (llama3_go ascii_flags ascii_tolower cpts 0 cpts.length fuel pos pos acc)
        p L = true := by
  intro fuel
  induction fuel with
  | zero =>
    intro pos acc h1 h2 _
    omega
  | succ k ih =>
    intro pos acc h1 h2 h3
    rcases Nat.lt_or_ge pos p with hlt | hge
    · rw [llama3_go, if_pos (by omega)]
      obtain ⟨e, d, hit, he1, he2, hsum, _⟩ :=
        llama3_iter_spec ascii_flags ascii_tolower cpts 0 cpts.length pos acc (by omega)
      have hle : e ≤ p := by
        have hb := c7_iter_le cpts p pos hp hapo hprev hlt acc
        rw [hit] at hb
        exact hb
      rw [hit]
      exact ih e (acc ++ d) (by omega) hle (by rw [List.sum_append, h3, hsum]; omega)
    · have hpe : pos = p := by omega
      subst hpe
      exact hhit k acc h1 h3

theorem llama3_hit2 (cpts : List Nat) (p fuel : Nat) (acc : List Nat)
    (hp : p < cpts.length) (hapo : cpts.getD p 0 = 39)
    (h1 : p + 1 < cpts.length)
    (hsuf : ascii_tolower (cpts.getD (p + 1) 0) = 115 ∨
      ascii_tolower (cpts.getD (p + 1) 0) = 116 ∨
      ascii_tolower (cpts.getD (p + 1) 0) = 109 ∨
      ascii_tolower (cpts.getD (p + 1) 0) = 100)
    (hfuel : cpts.length - p ≤ fuel + 1) (hsum : acc.sum = p) :
    token_at (llama3_go ascii_flags ascii_tolower cpts 0 cpts.length (fuel + 1) p p acc)
      p 2 = true := by
  have hgc1 : seg_get_cpt cpts 0 cpts.length (p + 1) = cpts.getD (p + 1) 0 := by
    rw [seg_get_cpt, if_pos ⟨Nat.zero_le _, h1⟩]
  have hc1 : seg_get_cpt cpts 0 cpts.length p = 39 ∧ p + 1 < cpts.length ∧
      (ascii_tolower (seg_get_cpt cpts 0 cpts.length (p + 1)) = 115 ∨
       ascii_tolower (seg_get_cpt cpts 0 cpts.length (p + 1)) = 116 ∨
       ascii_tolower (seg_get_cpt cpts 0 cpts.length (p + 1)) = 109 ∨
       ascii_tolower (seg_get_cpt cpts 0 cpts.length (p + 1)) = 100) := by
    refine ⟨?_, h1, ?_⟩
    · rw [seg_get_cpt, if_pos ⟨Nat.zero_le _, hp⟩]
      exact hapo
    · rw [hgc1]
      exact hsuf
  rw [llama3_go, if_pos hp, llama3_iter, if_pos hc1]
  dsimp only
  rw [show p + (add_token acc p (p + 2)).2 = p + 2 from by
    rw [show (add_token acc p (p + 2)).2 = p + 2 - p from rfl]; omega]
  rw [show (add_token acc p (p + 2)).1 = acc ++ [2] from by
    rw [add_token, if_pos (by omega), show p + 2 - p = 2 from by omega]]
  obtain ⟨extra, hx1, _, _⟩ := llama3_go_master ascii_flags ascii_tolower cpts 0
    cpts.length fuel (p + 2) (acc ++ [2]) (by omega) (by omega)
  rw [hx1]
  exact token_at_mark acc extra p 2 hsum

theorem llama3_hit3 (cpts : List Nat) (p fuel : Nat) (acc : List Nat)
    (hp : p < cpts.length) (hapo : cpts.getD p 0 = 39)
    (h2 : p + 2 < cpts.length)
    (hno2 : ¬ (ascii_tolower (cpts.getD (p + 1) 0) = 115 ∨
      ascii_tolower (cpts.getD (p + 1) 0) = 116 ∨
      ascii_tolower (cpts.getD (p + 1) 0) = 109 ∨
      ascii_tolower (cpts.getD (p + 1) 0) = 100))
    (hsuf : (ascii_tolower (cpts.getD (p + 1) 0) = 114 ∧
        ascii_tolower (cpts.getD (p + 2) 0) = 101) ∨
      (ascii_tolower (cpts.getD (p + 1) 0) = 118 ∧
        ascii_tolower (cpts.getD (p + 2) 0) = 101) ∨
      (ascii_tolower (cpts.getD (p + 1) 0) = 108 ∧
        ascii_tolower (cpts.getD (p + 2) 0) = 108))
    (hfuel : cpts.length - p ≤ fuel + 1) (hsum : acc.sum = p) :
    token_at (llama3_go ascii_flags ascii_tolower cpts 0 cpts.length (fuel + 1) p p acc)
      p 3 = true := by
  have hgc1 : seg_get_cpt cpts 0 cpts.length (p + 1) = cpts.getD (p + 1) 0 := by
    rw [seg_get_cpt, if_pos ⟨Nat.zero_le _, by omega⟩]
  have hgc2 : seg_get_cpt cpts 0 cpts.length (p + 2) = cpts.getD (p + 2) 0 := by
    rw [seg_get_cpt, if_pos ⟨Nat.zero_le _, h2⟩]
  have hnc1 : ¬ (seg_get_cpt cpts 0 cpts.length p = 39 ∧ p + 1 < cpts.length ∧
      (ascii_tolower (seg_get_cpt cpts 0 cpts.length (p + 1)) = 115 ∨
       ascii_tolower (seg_get_cpt cpts 0 cpts.length (p + 1)) = 116 ∨
       ascii_tolower (seg_get_cpt cpts 0 cpts.length (p + 1)) = 109 ∨
       ascii_tolower (seg_get_cpt cpts 0 cpts.length (p + 1)) = 100)) := by
    intro h
    rw [hgc1] at h
    exact hno2 h.2.2
  have hc2 : seg_get_cpt cpts 0 cpts.length p = 39 ∧ p + 1 < cpts.length ∧
      p + 2 < cpts.length ∧
      ((ascii_tolower (seg_get_cpt cpts 0 cpts.length (p + 1)) = 114 ∧
        ascii_tolower (seg_get_cpt cpts 0 cpts.length (p + 2)) = 101) ∨
       (ascii_tolower (seg_get_cpt cpts 0 cpts.length (p + 1)) = 118 ∧
        ascii_tolower (seg_get_cpt cpts 0 cpts.length (p + 2)) = 101) ∨
       (ascii_tolower (seg_get_cpt cpts 0 cpts.length (p + 1)) = 108 ∧
        ascii_tolower (seg_get_cpt cpts 0 cpts.length (p + 2)) = 108)) := by
    refine ⟨?_, by omega, h2, ?_⟩
    · rw [seg_get_cpt, if_pos ⟨Nat.zero_le _, hp⟩]
      exact hapo
    · rw [hgc1, hgc2]
      exact hsuf
  rw [llama3_go, if_pos hp, llama3_iter, if_neg hnc1, if_pos hc2]
  dsimp only
  rw [show p + (add_token acc p (p + 3)).2 = p + 3 from by
    rw [show (add_token acc p (p + 3)).2 = p + 3 - p from rfl]; omega]
  rw [show (add_token acc p (p + 3)).1 = acc ++ [3] from by
    rw [add_token, if_pos (by omega), show p + 3 - p = 3 from by omega]]
  obtain ⟨extra, hx1, _, _⟩ := llama3_go_master ascii_flags ascii_tolower cpts 0
    cpts.length fuel (p + 3) (acc ++ [3]) (by omega) (by omega)
  rw [hx1]
  exact token_at_mark acc extra p 3 hsum

/-- C7 (counterexample): the spec states that ANY apostrophe followed by a
contraction suffix yields a token of that length at that position, with no
condition on what precedes the apostrophe. On the text
`" 's"` = `[32, 39, 115]` the apostrophe at position 1 is followed by `s`,
yet the splitter emits `[2, 1]`: the other-class rule starting at the
space swallows the apostrophe, producing `" '"` then `"s"`, and no token
of length 2 starts at position 1 (unicode.cpp:447-458 fires before
position 1 is reached). -/
theorem c7_counterexample :
    unicode_regex_split_custom_llama3 ascii_flags ascii_tolower [32, 39, 115] [3] =
      Except.ok [2, 1] ∧
    seg_get_cpt [32, 39, 115] 0 3 1 = 39 ∧
    ascii_tolower (seg_get_cpt [32, 39, 115] 0 3 2) = 115 ∧
    token_at [2, 1] 1 2 = false := by
  refine ⟨by rfl, by rfl, by rfl, by rfl⟩

/-- C7 (amended): if the apostrophe at position `p` sits at the start of
the text or right after a letter, then the LLaMA-3 custom splitter, run on
the whole text as one segment, emits a token of exactly 2 codepoints at
`p` when a 2-codepoint suffix follows (s/t/m/d case-insensitively), and of
exactly 3 codepoints at `p` when no 2-codepoint suffix but a 3-codepoint
suffix follows (re/ve/ll case-insensitively)
(unicode.cpp:404-418, with `unicode_tolower` and the flag table modelled
on ASCII by `ascii_tolower` and `ascii_flags`). -/
theorem c7_contraction_after_letter (text cpts : List Nat) (p : Nat)
    (hdec : unicode_cpts_from_utf8 text = Except.ok cpts)
    (hp : p < cpts.length)
    (hapo : cpts.getD p 0 = 39)
    (hprev : p = 0 ∨ (ascii_flags (cpts.getD (p - 1) 0)).is_letter = true) :
    (p + 1 < cpts.length ∧
        (ascii_tolower (cpts.getD (p + 1) 0) = 115 ∨
         ascii_tolower (cpts.getD (p + 1) 0) = 116 ∨
         ascii_tolower (cpts.getD (p + 1) 0) = 109 ∨
         ascii_tolower (cpts.getD (p + 1) 0) = 100) →
      ∃ offs, unicode_regex_split_custom_llama3 ascii_flags ascii_tolower text
          [cpts.length] = Except.ok offs ∧ token_at offs p 2 = true) ∧
    (p + 2 < cpts.length ∧
        ¬ (ascii_tolower (cpts.getD (p + 1) 0) = 115 ∨
           ascii_tolower (cpts.getD (p + 1) 0) = 116 ∨
           ascii_tolower (cpts.getD (p + 1) 0) = 109 ∨
           ascii_tolower (cpts.getD (p + 1) 0) = 100) ∧
        ((ascii_tolower (cpts.getD (p + 1) 0) = 114 ∧
          ascii_tolower (cpts.getD (p + 2) 0) = 101) ∨
         (ascii_tolower (cpts.getD (p + 1) 0) = 118 ∧
          ascii_tolower (cpts.getD (p + 2) 0) = 101) ∨
         (ascii_tolower (cpts.getD (p + 1) 0) = 108 ∧
          ascii_tolower (cpts.getD (p + 2) 0) = 108)) →
      ∃ offs, unicode_regex_split_custom_llama3 ascii_flags ascii_tolower text
          [cpts.length] = Except.ok offs ∧ token_at offs p 3 = true) := by
  have hsplit : unicode_regex_split_custom_llama3 ascii_flags ascii_tolower text
      [cpts.length] = Except.ok
        (llama3_go ascii_flags ascii_tolower cpts 0 cpts.length cpts.length 0 0 []) := by
    rw [unicode_regex_split_custom_llama3, hdec]
    dsimp only
    rw [split_segments, split_segments]
    simp only [Nat.zero_add, Nat.sub_zero]
  constructor
  · rintro ⟨h1, hsuf⟩
    refine ⟨_, hsplit, ?_⟩
    exact llama3_go_reach cpts p 2 hp hapo hprev
      (fun fuel acc hf hs => llama3_hit2 cpts p fuel acc hp hapo h1 hsuf hf hs)
      cpts.length 0 [] (by omega) (Nat.zero_le p) rfl
  · rintro ⟨h2, hno2, hsuf⟩
    refine ⟨_, hsplit, ?_⟩
    exact llama3_go_reach cpts p 3 hp hapo hprev
      (fun fuel acc hf hs => llama3_hit3 cpts p fuel acc hp hapo h2 hno2 hsuf hf hs)
      cpts.length 0 [] (by omega) (Nat.zero_le p) rfl

/-- Witness for the amended C7 at the text `"a'S"`: token `'S` of length 2
at position 1 (the splitter emits `[1, 2]`). -/
theorem c7_contraction_after_letter_witness :
    ∃ offs, unicode_regex_split_custom_llama3 ascii_flags ascii_tolower [97, 39, 83]
        [3] = Except.ok offs ∧ token_at offs 1 2 = true :=
  (c7_contraction_after_letter [97, 39, 83] [97, 39, 83] 1 (by rfl) (by decide)
      (by decide) (by decide)).1 (by decide)
